import Mathlib

/-!
Verification development for the S3 document pipeline
(`src/main.py`, `src/data_pipeline/stage_01_ocr.py`,
`src/data_pipeline/stage_02_fext.py`,
`src/data_pipeline/stage_03_data_cleaning.py`,
`src/utils/ocr/bedrock.py`, `src/utils/fext/openai_fext.py`).

The pipeline is shallowly embedded: the object store is a finite
key-to-blob map, JSON documents are a small inductive type, the two
remote transforms (Bedrock OCR, OpenAI feature extraction) are
parameters of the stage contexts (the spec treats them as external
collaborators), and each stage runner is an executable Lean function
translated line by line from its Python source.  The bounded worker
pool of stage 2 is modelled by processing manifest entries in
submission order; the pool only permutes the manifest order, and every
property proved below is insensitive to that permutation.
-/

/-- A JSON value, as produced by `json.loads` / consumed by `json.dumps`.
Objects are association lists in insertion order, matching CPython dicts. -/
inductive JVal where
  | null : JVal
  | bool (b : Bool) : JVal
  | num (n : Int) : JVal
  | str (s : String) : JVal
  | arr (xs : List JVal) : JVal
  | obj (fields : List (String × JVal)) : JVal

/-- Python truthiness (`bool(v)`) for JSON values. -/
def jvTruthy : JVal → Bool
  | .null => false
  | .bool b => b
  | .num n => n != 0
  | .str s => s ≠ ""
  | .arr xs => ¬ xs.isEmpty
  | .obj fs => ¬ fs.isEmpty

/-- `d.get(k)` on a JSON object represented as an association list
(first binding wins, as keys are unique in parsed JSON). -/
def lookupF (fields : List (String × JVal)) (k : String) : Option JVal :=
  (fields.find? (fun p => p.1 == k)).map (·.2)

/-- `d = dict(src); d[k] = v`: copy a dict and set one key, keeping the
position of an existing key and appending a missing one (CPython dict
semantics, used by stage 3 to build the cleaned payload). -/
def setKey (fields : List (String × JVal)) (k : String) (v : JVal) :
    List (String × JVal) :=
  if fields.any (fun p => p.1 == k) then
    fields.map (fun p => if p.1 == k then (k, v) else p)
  else
    fields ++ [(k, v)]

/-- A manifest entry: one JSON object (the dicts appended to the
`manifest` lists in all three stage files). -/
abbrev Entry := List (String × JVal)

/-- The `status` field of a produced manifest entry, or `""` when the
entry has no such field (stage 1 success entries have none). -/
def statusOf (en : Entry) : String :=
  match lookupF en "status" with
  | some (.str s) => s
  | _ => ""

/-- Number of entries of a manifest carrying a given `status`. -/
def countStatus (m : List Entry) (st : String) : Nat :=
  m.countP (fun en => statusOf en == st)

/-- One stored object: a source PDF (its renderable pages, identified
by opaque numbers), a JSON document, or a plain-text object (logs). -/
inductive Blob where
  | pdf (pages : List Nat) : Blob
  | json (v : JVal) : Blob
  | blobText (s : String) : Blob

/-- The object store: keys to blobs.  Built by `storePut`, keys are
unique; `storeGet` takes the first binding. -/
abbrev Store := List (String × Blob)

/-- `get_object` lookup. -/
def storeGet (s : Store) (k : String) : Option Blob :=
  (s.find? (fun p => p.1 == k)).map (·.2)

/-- `put_object`: overwrite or insert. -/
def storePut (s : Store) (k : String) (b : Blob) : Store :=
  (k, b) :: s.filter (fun p => !(p.1 == k))

/-- `head_object` succeeding: the key is present. -/
def storeHasKey (s : Store) (k : String) : Bool :=
  (storeGet s k).isSome

/-- All keys of the store. -/
def storeKeys (s : Store) : List String := s.map (·.1)

/-! ### Path helpers (`pathlib.Path` operations used by the stages).
All string operations are implemented structurally over the character
list so that concrete runs evaluate. -/

/-- Single-character split, the semantics of `str.split(sep)`. -/
def splitChar (sep : Char) : List Char → List (List Char)
  | [] => [[]]
  | c :: rest =>
    let r := splitChar sep rest
    if c = sep then [] :: r
    else match r with
      | [] => [[c]]
      | g :: gs => (c :: g) :: gs

/-- `s.split(sep)` for a one-character separator. -/
def strSplit (s : String) (sep : Char) : List String :=
  (splitChar sep s.data).map String.mk

/-- `s.startswith(t)`. -/
def strStartsWith (s t : String) : Bool := t.data.isPrefixOf s.data

/-- `s.endswith(t)`. -/
def strEndsWith (s t : String) : Bool := t.data.isSuffixOf s.data

/-- `s.lower()` (over the ASCII range the keys use). -/
def strLower (s : String) : String := String.mk (s.data.map Char.toLower)

/-- `s.strip()`: drop whitespace from both ends. -/
def strTrim (s : String) : String :=
  String.mk
    (((s.data.dropWhile (·.isWhitespace)).reverse.dropWhile
        (·.isWhitespace)).reverse)

/-- `s.lstrip("/")`. -/
def lstripSlash (s : String) : String := String.mk (s.data.dropWhile (· = '/'))

/-- `s.rstrip("/")`. -/
def rstripSlash (s : String) : String :=
  String.mk ((s.data.reverse.dropWhile (· = '/')).reverse)

/-- Last path component (`Path(p).name`). -/
def lastComp (p : String) : String := (strSplit p '/').getLast? |>.getD ""

/-- `Path(p).stem`: last component without its final extension. -/
def pyStem (p : String) : String :=
  let n := lastComp p
  let parts := strSplit n '.'
  if parts.length ≤ 1 then n
  else if parts.headD "" = "" ∧ parts.length = 2 then n
  else String.intercalate "." parts.dropLast

/-- `Path(p).parent.as_posix()` for the relative keys the stages build
(no leading slash, no trailing slash). -/
def pyParent (p : String) : String :=
  let cs := strSplit p '/'
  if cs.length ≤ 1 then "." else String.intercalate "/" cs.dropLast

/-- `Path(p).parent.name`. -/
def parentName (p : String) : String := lastComp (pyParent p)

/-- Prefix normalisation done at the top of each stage: strip leading
slashes, then append a trailing slash when nonempty. -/
def normPfx (raw : String) : String :=
  let s := lstripSlash raw
  if s ≠ "" ∧ ¬ strEndsWith s "/" then s ++ "/" else s

/-- The key filter used by `list_pdfs_in_prefix`: under the prefix,
lowercase form ends in `.pdf`, not a pseudo-directory. -/
def pdfKeyTest (p k : String) : Bool :=
  strStartsWith k p && strEndsWith (strLower k) ".pdf" && ¬ strEndsWith k "/"

/-- Lexicographic code-point comparison, the string order `sorted`
uses. -/
def charListLe : List Char → List Char → Bool
  | [], _ => true
  | _ :: _, [] => false
  | a :: as, b :: bs =>
    if a.toNat < b.toNat then true
    else if b.toNat < a.toNat then false
    else charListLe as bs

/-- `a <= b` on strings. -/
def strLe (a b : String) : Bool := charListLe a.data b.data

/-- Insertion into a sorted list of strings. -/
def sortedInsert (x : String) : List String → List String
  | [] => [x]
  | y :: ys => if strLe x y then x :: y :: ys else y :: sortedInsert x ys

/-- Insertion sort, the semantics of `sorted` on string lists. -/
def sortStrings : List String → List String
  | [] => []
  | x :: xs => sortedInsert x (sortStrings xs)

/-- `list_pdfs_in_prefix`: matching keys, sorted. -/
def listPdfKeys (s : Store) (p : String) : List String :=
  sortStrings ((storeKeys s).filter (pdfKeyTest p))

/-! ### Retry/backoff executors
(`utils/ocr/bedrock.py` lines 91-161 and `utils/fext/openai_fext.py`
lines 105-240).  An operation is a function from the 1-based attempt
number to its outcome; sleeps are recorded as rational durations. -/

/-- `min(20, (2 ** (attempt - 1)) * 0.7)`: the backoff sleep computed
after a failed attempt (identical formula in both retry loops). -/
def backoffDelay (attempt : Nat) : ℚ :=
  min 20 ((7 / 10 : ℚ) * 2 ^ (attempt - 1))

/-- Outcome of a retry loop: the final result (`error` wraps the last
underlying error message, `none` when the loop never ran), the number
of invocations of the operation, and the recorded sleeps in order. -/
structure RetryOut (A : Type) where
  result : Except (Option String) A
  calls : Nat
  sleeps : List ℚ

/-- Core of `bedrock_converse_ocr_page`: try attempts while budget
remains; on failure sleep (even after the final attempt) and continue;
after the budget raise wrapping the last error. -/
def bedrockRetryGo {A : Type} (op : Nat → Except String A) :
    Nat → Nat → Option String → RetryOut A
  | 0, _, last => ⟨.error last, 0, []⟩
  | r + 1, attempt, _ =>
    match op attempt with
    | .ok a => ⟨.ok a, 1, []⟩
    | .error e =>
      let rest := bedrockRetryGo op r (attempt + 1) (some e)
      ⟨rest.result, rest.calls + 1, backoffDelay attempt :: rest.sleeps⟩

/-- The Bedrock OCR retry loop with `retries` total attempts. -/
def bedrockRetry {A : Type} (op : Nat → Except String A) (retries : Nat) :
    RetryOut A :=
  bedrockRetryGo op retries 1 none

/-- Core of the OpenAI extraction retry loop: identical to the Bedrock
loop except that no sleep follows the final attempt
(`if attempt < retries` guard at line 233). -/
def openaiRetryGo {A : Type} (op : Nat → Except String A) (retries : Nat) :
    Nat → Nat → Option String → RetryOut A
  | 0, _, last => ⟨.error last, 0, []⟩
  | r + 1, attempt, _ =>
    match op attempt with
    | .ok a => ⟨.ok a, 1, []⟩
    | .error e =>
      let rest := openaiRetryGo op retries r (attempt + 1) (some e)
      ⟨rest.result, rest.calls + 1,
        if attempt < retries then backoffDelay attempt :: rest.sleeps
        else rest.sleeps⟩

/-- The OpenAI feature-extraction retry loop with `retries` attempts. -/
def openaiRetryRun {A : Type} (op : Nat → Except String A) (retries : Nat) :
    RetryOut A :=
  openaiRetryGo op retries retries 1 none

/-- `get_openai_client` (openai_fext.py lines 22-35): a missing or
empty `OPENAI_API_KEY` raises a `RuntimeError` before any transform
call; otherwise the client is available. -/
def getOpenaiClientCheck (apiKey : Option String) : Except String Unit :=
  match apiKey with
  | none => .error "OPENAI_API_KEY is not set."
  | some k => if k = "" then .error "OPENAI_API_KEY is not set." else .ok ()

/-- `openai_extract_haryana_features`: the client check runs before the
retry loop, so a missing credential propagates with zero transform
invocations; any error raised inside the loop is retried. -/
def openaiExtractModel {A : Type} (apiKey : Option String)
    (op : Nat → Except String A) (retries : Nat) :
    Except String (RetryOut A) :=
  match getOpenaiClientCheck apiKey with
  | .error e => .error e
  | .ok _ => .ok (openaiRetryRun op retries)

/-! ### The `_s3_key_exists` idempotency check (three copies:
stage_01_ocr.py lines 20-31, stage_02_fext.py lines 30-40,
stage_03_data_cleaning.py lines 28-38). -/

/-- Outcome of a `head_object` call: success, a botocore `ClientError`
carrying an error code (the `NoSuchKey` exception class is a
`ClientError` with code `NoSuchKey`), or any other exception. -/
inductive HeadRes where
  | ok : HeadRes
  | clientError (code : String) : HeadRes
  | exc (name : String) : HeadRes
deriving DecidableEq, Repr

/-- The not-found codes recognised by all three copies. -/
def notFoundCodes : List String := ["404", "NoSuchKey", "NotFound"]

/-- Stage 1 copy: a dedicated `except NoSuchKey` clause first, then a
generic handler that re-raises unless the error is a `ClientError`
with a not-found code. -/
def s3KeyExistsS1 : HeadRes → Except HeadRes Bool
  | .ok => .ok true
  | .clientError code =>
    if code = "NoSuchKey" then .ok false
    else if code ∈ notFoundCodes then .ok false
    else .error (.clientError code)
  | .exc n => .error (.exc n)

/-- Stage 2 copy: catch `ClientError`, return `False` on a not-found
code, re-raise anything else. -/
def s3KeyExistsS2 : HeadRes → Except HeadRes Bool
  | .ok => .ok true
  | .clientError code =>
    if code ∈ notFoundCodes then .ok false else .error (.clientError code)
  | .exc n => .error (.exc n)

/-- Stage 3 copy: textually identical to the stage 2 copy. -/
def s3KeyExistsS3 : HeadRes → Except HeadRes Bool
  | .ok => .ok true
  | .clientError code =>
    if code ∈ notFoundCodes then .ok false else .error (.clientError code)
  | .exc n => .error (.exc n)

/-! ### Shared stage plumbing -/

/-- Python exceptions that can escape a stage run. -/
inductive PyError where
  | typeError (msg : String) : PyError
  | nameError (msg : String) : PyError
  | clientError (code : String) : PyError
  | valueError (msg : String) : PyError
deriving DecidableEq

/-- Result of one stage run: the store after all writes, the in-memory
manifest list, the number of per-item transform/processing invocations,
whether the empty-scope warning was logged, and whether the manifest
file was persisted. -/
structure StageOut where
  store : Store
  manifest : List Entry
  calls : Nat
  warned : Bool
  manifestWritten : Bool

/-- A manifest serialised to its stored JSON form (a list of objects). -/
def manifestBlob (m : List Entry) : Blob := .json (.arr (m.map .obj))

/-- `_load_manifest_from_s3`: `get_object` raises `NoSuchKey` for a
missing key; a JSON document that is not a list raises `ValueError`;
a non-JSON blob fails `json.loads`. -/
def loadManifest (s : Store) (k : String) : Except PyError (List JVal) :=
  match storeGet s k with
  | none => .error (.clientError "NoSuchKey")
  | some (.json (.arr xs)) => .ok xs
  | some (.json _) => .error (.valueError "manifest is not a list")
  | some _ => .error (.valueError "invalid json")

/-- `item.get(k)` for a manifest entry.  Entries written by the stages
are always JSON objects; a non-object yields `none` here. -/
def itemGet (item : JVal) (k : String) : Option JVal :=
  match item with
  | .obj f => lookupF f k
  | _ => none

/-- `item.get(k)` coerced through Python truthiness to a usable string
key (the stages only ever store string values in these fields). -/
def truthyStrGet (item : JVal) (k : String) : Option String :=
  match itemGet item k with
  | some (.str s) => if s = "" then none else some s
  | _ => none

/-- `item.get("input_pdf_s3_key") or item.get("pdf_s3_key")`. -/
def pdfKeyOf (item : JVal) : Option String :=
  (truthyStrGet item "input_pdf_s3_key").orElse
    (fun _ => truthyStrGet item "pdf_s3_key")

/-- `(item.get("status") or "").lower()`. -/
def statusLowerOf (item : JVal) : String :=
  match itemGet item "status" with
  | some (.str s) => strLower s
  | _ => ""

/-! ### Stage 1: OCR (`stage_01_ocr.py`, `run_stage_01_ocr_from_s3`) -/

/-- Stage 1 context: configuration plus the OCR remote transform
(`bedrock_converse_ocr_page` seen through its retry loop, one call per
rendered page; the transform is an external collaborator). -/
structure Ctx1 where
  bucket : String
  pfx : String
  modelId : String
  maxPages : Option Nat
  ocr : Nat → Except String String
  uploadLog : Bool

/-- `pdf_to_png_bytes(..., max_pages=...)`: optional page limit. -/
def effPages (c : Ctx1) (ps : List Nat) : List Nat :=
  match c.maxPages with
  | none => ps
  | some n => ps.take n

/-- OCR all pages of one document in order; the first failing page
aborts the document.  Also counts transform invocations. -/
def ocrAll (ocr : Nat → Except String String) :
    List Nat → Except String (List String) × Nat
  | [] => (.ok [], 0)
  | p :: ps =>
    match ocr p with
    | .error e => (.error e, 1)
    | .ok t =>
      match ocrAll ocr ps with
      | (r, n) => (r.map (fun ts => t :: ts), n + 1)

/-- Output key: `<prefix><parent>/ocr/<stem>.ocr.json` (lines 147-151). -/
def stage1OutKey (p key : String) : String :=
  let relKey := lstripSlash (key.drop p.length)
  p ++ rstripSlash (pyParent relKey) ++ "/ocr/" ++ pyStem relKey ++ ".ocr.json"

/-- Stage 1 skip entry (lines 158-165). -/
def skipEntry1 (bucket key outKey : String) : Entry :=
  [("s3_bucket", .str bucket), ("input_pdf_s3_key", .str key),
   ("ocr_json_s3_key", .str outKey), ("status", .str "skipped_exists")]

/-- Stage 1 success entry (lines 222-229): note that it carries a
`pages` count and no `status` field. -/
def okEntry1 (bucket key outKey : String) (pages : Nat) : Entry :=
  [("s3_bucket", .str bucket), ("input_pdf_s3_key", .str key),
   ("ocr_json_s3_key", .str outKey), ("pages", .num pages)]

/-- One page object of the OCR payload (`{"page": i, "text": t}`). -/
def pageObjs : List String → Nat → List JVal
  | [], _ => []
  | t :: ts, i => .obj [("page", .num i), ("text", .str t)] :: pageObjs ts (i + 1)

/-- The OCR output payload (lines 206-210). -/
def ocrPayload (bucket key modelId : String) (texts : List String) : JVal :=
  .obj [("s3", .obj [("bucket", .str bucket), ("key", .str key)]),
        ("model_id", .str modelId),
        ("pages", .arr (pageObjs texts 1))]

/-- Stage 1 per-document step (lines 142-241): skip when the output
key already exists (unconditionally — the function has no `force`
parameter); otherwise OCR every page and upload; on any exception the
failure is logged and NO manifest entry is appended. -/
def processPdf1 (c : Ctx1) (p : String) (s : Store) (key : String) :
    Store × Option Entry × Nat :=
  let outKey := stage1OutKey p key
  if storeHasKey s outKey then
    (s, some (skipEntry1 c.bucket key outKey), 0)
  else
    match storeGet s key with
    | some (.pdf pages) =>
      let r := ocrAll c.ocr (effPages c pages)
      match r.1 with
      | .ok texts =>
        (storePut s outKey (.json (ocrPayload c.bucket key c.modelId texts)),
         some (okEntry1 c.bucket key outKey texts.length), r.2)
      | .error _ => (s, none, r.2)
    | _ => (s, none, 0)

/-- Stage 1 main loop over the listed PDF keys. -/
def stage1Loop (c : Ctx1) (p : String) :
    Store → List String → Store × List Entry × Nat
  | s, [] => (s, [], 0)
  | s, key :: rest =>
    let r := processPdf1 c p s key
    let r2 := stage1Loop c p r.1 rest
    (r2.1, r.2.1.toList ++ r2.2.1, r.2.2 + r2.2.2)

/-- `run_stage_01_ocr_from_s3`: list PDFs under the normalised prefix;
with zero PDFs log a warning and return WITHOUT writing a manifest;
otherwise process every key and persist the manifest (and optionally
the log) unconditionally. -/
def runStage1 (c : Ctx1) (s : Store) : StageOut :=
  let p := normPfx c.pfx
  let keys := listPdfKeys s p
  if keys.isEmpty then ⟨s, [], 0, true, false⟩
  else
    let r := stage1Loop c p s keys
    let s2 := storePut r.1 (p ++ "manifest.json") (manifestBlob r.2.1)
    let s3 := if c.uploadLog then
        storePut s2 (p ++ "stage_01_ocr.log") (.blobText "") else s2
    ⟨s3, r.2.1, r.2.2, false, true⟩

/-! ### Stage 2: feature extraction (`stage_02_fext.py`,
`run_stage_02_fext_from_s3` / `process_manifest_entry`).  The thread
pool is modelled by processing entries in submission order; only the
manifest order depends on completion order. -/

/-- Stage 2 context: configuration plus the feature-extraction remote
transform (`openai_extract_haryana_features` seen through its retry
loop; an external collaborator mapping the combined OCR text to a
features dict). -/
structure Ctx2 where
  bucket : String
  pfx : String
  modelId : String
  fext : String → Except String (List (String × JVal))
  uploadLog : Bool

/-- Stage 2 output key: `<parent>/fext/<stem>.features.json`. -/
def fextKeyOf (pdfKey : String) : String :=
  rstripSlash (pyParent pdfKey) ++ "/fext/" ++ pyStem pdfKey ++ ".features.json"

/-- A stage 2 manifest entry (all four outcomes share this shape,
lines 215-221, 238-244, 286-292, 296-302). -/
def entry2 (bucket pdfKey ocrKey fextKey status : String) : Entry :=
  [("s3_bucket", .str bucket), ("input_pdf_s3_key", .str pdfKey),
   ("ocr_json_s3_key", .str ocrKey), ("fext_json_s3_key", .str fextKey),
   ("status", .str status)]

/-- The stage 2 features payload (lines 264-274). -/
def outPayload2 (c : Ctx2) (pdfKey ocrKey fextKey : String)
    (features : List (String × JVal)) : JVal :=
  .obj [("schema_version", .str "haryana_clu_v1"),
        ("model_id", .str c.modelId),
        ("s3", .obj [("bucket", .str c.bucket), ("pdf_key", .str pdfKey),
                     ("ocr_json_key", .str ocrKey),
                     ("fext_json_key", .str fextKey)]),
        ("features", .obj features)]

/-- Raw `p.get("text") or ""` values of a `pages` list; `none` models
an exception inside the per-item `try` (a page that is not an object,
or a truthy non-string `text`). -/
def pageRawTexts : List JVal → Option (List String)
  | [] => some []
  | .obj f :: rest =>
    let t : Option String :=
      match lookupF f "text" with
      | some (.str s) => some s
      | none => some ""
      | some v => if jvTruthy v then none else some ""
    match t, pageRawTexts rest with
    | some s, some ts => some (s :: ts)
    | _, _ => none
  | _ :: _ => none

/-- Lines 228-234: `ocr_payload.get("pages", [])`, then collect
stripped nonempty page texts; `none` models an exception inside the
`try` (payload not an object, or a `pages` value that is not a list). -/
def pageTextsOf (v : JVal) : Option (List String) :=
  match v with
  | .obj f =>
    match lookupF f "pages" with
    | none => some []
    | some (.arr ps) =>
      (pageRawTexts ps).map
        (fun ts => (ts.map strTrim).filter (fun t => ¬ t = ""))
    | some _ => none
  | _ => none

/-- `process_manifest_entry` (lines 183-302): drop the entry when a
usable pdf/ocr key is missing (regardless of its status); skip when
the output exists and `force` is false; record `no_ocr_text` when no
page has text; otherwise call the transform and record `ok` (uploading
the payload) or `error`.  Any exception inside the `try` is contained
as an `error` entry. -/
def processEntry2 (c : Ctx2) (force : Bool) (s : Store) (item : JVal) :
    Store × Option Entry × Nat :=
  match pdfKeyOf item, truthyStrGet item "ocr_json_s3_key" with
  | some pdfKey, some ocrKey =>
    let fextKey := fextKeyOf pdfKey
    if !force && storeHasKey s fextKey then
      (s, some (entry2 c.bucket pdfKey ocrKey fextKey "skipped_exists"), 0)
    else
      match storeGet s ocrKey with
      | some (.json v) =>
        match pageTextsOf v with
        | some texts =>
          if texts.isEmpty then
            (s, some (entry2 c.bucket pdfKey ocrKey fextKey "no_ocr_text"), 0)
          else
            match c.fext (String.intercalate "\n\n" texts) with
            | .ok feats =>
              (storePut s fextKey
                 (.json (outPayload2 c pdfKey ocrKey fextKey feats)),
               some (entry2 c.bucket pdfKey ocrKey fextKey "ok"), 1)
            | .error _ =>
              (s, some (entry2 c.bucket pdfKey ocrKey fextKey "error"), 1)
        | none => (s, some (entry2 c.bucket pdfKey ocrKey fextKey "error"), 0)
      | some _ => (s, some (entry2 c.bucket pdfKey ocrKey fextKey "error"), 0)
      | none => (s, some (entry2 c.bucket pdfKey ocrKey fextKey "error"), 0)
  | _, _ => (s, none, 0)

/-- Stage 2 main loop: every manifest entry is submitted; dropped
entries contribute nothing; the loop itself never raises. -/
def stage2Loop (c : Ctx2) (force : Bool) :
    Store → List JVal → Store × List Entry × Nat
  | s, [] => (s, [], 0)
  | s, it :: rest =>
    let r := processEntry2 c force s it
    let r2 := stage2Loop c force r.1 rest
    (r2.1, r.2.1.toList ++ r2.2.1, r.2.2 + r2.2.2)

/-- `run_stage_02_fext_from_s3`: load the stage 1 manifest (raising on
a missing or malformed object); an empty manifest logs a warning and
returns without writing anything; otherwise process every entry and
persist the stage 2 manifest (and optionally the log). -/
def runStage2 (c : Ctx2) (force : Bool) (s : Store) : Except PyError StageOut :=
  let p := normPfx c.pfx
  match loadManifest s (p ++ "manifest.json") with
  | .error e => .error e
  | .ok items =>
    if items.isEmpty then .ok ⟨s, [], 0, true, false⟩
    else
      let r := stage2Loop c force s items
      let s2 := storePut r.1 (p ++ "manifest_fext.json") (manifestBlob r.2.1)
      let s3 := if c.uploadLog then
          storePut s2 (p ++ "stage_02_fext.log") (.blobText "") else s2
      .ok ⟨s3, r.2.1, r.2.2, false, true⟩

/-! ### Stage 3: cleaning (`stage_03_data_cleaning.py`,
`run_stage_03_clean_from_s3`).  The CSV mapping and the field-level
cleaning transforms are external collaborators (spec section 1) and
are parameters of the context. -/

/-- Stage 3 context. -/
structure Ctx3 where
  bucket : String
  pfx : String
  mapping : String → Option (List (String × String))
  applyOv : List (String × JVal) → List (String × String) → List (String × JVal)
  fieldClean : List (String × JVal) → List (String × JVal)
  uploadLog : Bool

/-- Stage 3 output key: `<parent>/clean/<stem>.clean.json`. -/
def cleanKeyOf (pdfKey : String) : String :=
  rstripSlash (pyParent pdfKey) ++ "/clean/" ++ pyStem pdfKey ++ ".clean.json"

/-- Stage 3 skip entry (lines 229-238). -/
def skipEntry3 (bucket pdfKey fextKey cleanKey : String) : Entry :=
  [("s3_bucket", .str bucket), ("input_pdf_s3_key", .str pdfKey),
   ("fext_json_s3_key", .str fextKey), ("clean_json_s3_key", .str cleanKey),
   ("mapping_found", .bool true), ("status", .str "skipped_exists")]

/-- Stage 3 success entry (lines 301-311). -/
def okEntry3 (bucket pdfKey fextKey cleanKey folder : String) (found : Bool) :
    Entry :=
  [("s3_bucket", .str bucket), ("input_pdf_s3_key", .str pdfKey),
   ("fext_json_s3_key", .str fextKey), ("clean_json_s3_key", .str cleanKey),
   ("mapping_pdf_name", .str folder), ("mapping_found", .bool found),
   ("status", .str "ok")]

/-- Stage 3 error entry (lines 317-327): `mapping_pdf_name` holds the
`folder_name` binding leaked from an earlier iteration. -/
def errEntry3 (bucket pdfKey fextKey cleanKey folder : String) : Entry :=
  [("s3_bucket", .str bucket), ("input_pdf_s3_key", .str pdfKey),
   ("fext_json_s3_key", .str fextKey), ("clean_json_s3_key", .str cleanKey),
   ("mapping_pdf_name", .str folder), ("mapping_found", .bool false),
   ("status", .str "error")]

/-- Lines 247-279: extract `features` (any non-dict value degrades to
an empty dict), find the mapping row by folder name or stem, apply the
CSV overrides when found, then run the field-level cleaners.  Returns
the cleaned features and the `mapping_found` flag. -/
def cleanedFeatures3 (c : Ctx3) (pdfKey : String)
    (fields : List (String × JVal)) : List (String × JVal) × Bool :=
  let feats := match lookupF fields "features" with
    | some (.obj f) => f
    | _ => []
  let folder := parentName pdfKey
  let stem := pyStem pdfKey
  let pair :=
    match (c.mapping folder).orElse (fun _ => c.mapping stem) with
    | none => (feats, false)
    | some row => (c.applyOv feats row, true)
  (c.fieldClean pair.1, pair.2)

/-- Lines 282-283: `cleaned_payload = dict(fext_payload);
cleaned_payload["features"] = cleaned_features`. -/
def cleanedPayload3 (c : Ctx3) (pdfKey : String)
    (fields : List (String × JVal)) : List (String × JVal) :=
  setKey fields "features" (.obj (cleanedFeatures3 c pdfKey fields).1)

/-- Stage 3 per-entry step (lines 183-328).  Entries whose status is
not `ok`/`skipped_exists`, or that lack usable keys, are dropped.  An
exception inside the `try` before `folder_name` is bound (missing or
undecodable features object) reaches the `except` handler, which
itself references `folder_name`: with no binding leaked from an
earlier iteration this raises `NameError` and aborts the stage;
otherwise an `error` entry (with the stale folder name) is recorded. -/
def processEntry3 (c : Ctx3) (force : Bool) (s : Store) (fb : Option String)
    (item : JVal) : Except PyError (Store × Option Entry × Nat × Option String) :=
  if (["ok", "skipped_exists"] : List String).contains (statusLowerOf item) then
    match pdfKeyOf item, truthyStrGet item "fext_json_s3_key" with
    | some pdfKey, some fextKey =>
      let cleanKey := cleanKeyOf pdfKey
      if !force && storeHasKey s cleanKey then
        .ok (s, some (skipEntry3 c.bucket pdfKey fextKey cleanKey), 0, fb)
      else
        match storeGet s fextKey with
        | some (.json (.obj fields)) =>
          let folder := parentName pdfKey
          .ok (storePut s cleanKey (.json (.obj (cleanedPayload3 c pdfKey fields))),
               some (okEntry3 c.bucket pdfKey fextKey cleanKey folder
                        (cleanedFeatures3 c pdfKey fields).2),
               1, some folder)
        | _ =>
          match fb with
          | none => .error (.nameError "folder_name")
          | some fn =>
            .ok (s, some (errEntry3 c.bucket pdfKey fextKey cleanKey fn), 1, fb)
    | _, _ => .ok (s, none, 0, fb)
  else .ok (s, none, 0, fb)

/-- Stage 3 main loop, threading the store and the leaked
`folder_name` binding. -/
def stage3Loop (c : Ctx3) (force : Bool) :
    Store → Option String → List JVal →
    Except PyError (Store × List Entry × Nat × Option String)
  | s, fb, [] => .ok (s, [], 0, fb)
  | s, fb, it :: rest =>
    match processEntry3 c force s fb it with
    | .error e => .error e
    | .ok r =>
      match stage3Loop c force r.1 r.2.2.2 rest with
      | .error e => .error e
      | .ok r2 => .ok (r2.1, r.2.1.toList ++ r2.2.1, r.2.2.1 + r2.2.2.1, r2.2.2.2)

/-- `run_stage_03_clean_from_s3`. -/
def runStage3 (c : Ctx3) (force : Bool) (s : Store) : Except PyError StageOut :=
  let p := normPfx c.pfx
  match loadManifest s (p ++ "manifest_fext.json") with
  | .error e => .error e
  | .ok items =>
    if items.isEmpty then .ok ⟨s, [], 0, true, false⟩
    else
      match stage3Loop c force s none items with
      | .error e => .error e
      | .ok r =>
        let s2 := storePut r.1 (p ++ "manifest_clean.json") (manifestBlob r.2.1)
        let s3 := if c.uploadLog then
            storePut s2 (p ++ "stage_03_clean.log") (.blobText "") else s2
        .ok ⟨s3, r.2.1, r.2.2.1, false, true⟩

/-! ### Coordinator (`main.py`) -/

/-- The parameters accepted by `run_stage_01_ocr_from_s3` (its `def`
signature, stage_01_ocr.py lines 64-72).  There is no `force`. -/
def stage01AcceptedParams : List String :=
  ["s3_prefix", "params_path", "env_file", "max_pages", "debug_creds",
   "log_level", "upload_log_to_s3"]

/-- The call `run_stage_01_ocr_from_s3(..., force=args.force)` made by
both the `ocr` and `pipeline` branches of `main.py` (lines 139-148 and
173-182): Python raises `TypeError` for the unexpected keyword before
the function body runs. -/
def callStage01FromMain (c : Ctx1) (s : Store) : Except PyError StageOut :=
  if "force" ∈ stage01AcceptedParams then .ok (runStage1 c s)
  else .error (.typeError "run_stage_01_ocr_from_s3 got an unexpected keyword argument force")

/-- The `ocr` CLI command. -/
def mainOcrCmd (c : Ctx1) (s : Store) : Except PyError StageOut :=
  callStage01FromMain c s

/-- The `pipeline` CLI command (main.py lines 171-205): the three
stages in sequence, each call made exactly as written. -/
def mainPipelineCmd (c1 : Ctx1) (c2 : Ctx2) (c3 : Ctx3) (force : Bool)
    (s : Store) : Except PyError StageOut := do
  let o1 ← callStage01FromMain c1 s
  let o2 ← runStage2 c2 force o1.store
  let o3 ← runStage3 c3 force o2.store
  return o3

/-- The pipeline branch of `main.py` with the stage 1 call binding
repaired (as if the keyword were accepted): used to exhibit that the
coordinator body contains no empty-scope short circuit — stage 2 is
invoked unconditionally after stage 1 returns. -/
def pipelineStagesInOrder (c1 : Ctx1) (c2 : Ctx2) (c3 : Ctx3) (force : Bool)
    (s : Store) : Except PyError StageOut := do
  let o1 := runStage1 c1 s
  let o2 ← runStage2 c2 force o1.store
  let o3 ← runStage3 c3 force o2.store
  return o3

/-! ### Concrete instances for counterexamples and witnesses -/

/-- Stage 1 context whose OCR transform fails deterministically on page
2 (the only page of document `b`) and succeeds elsewhere. -/
def c1xCtx : Ctx1 :=
  ⟨"B", "Z", "m", none, fun p => if p = 2 then .error "boom" else .ok "text", false⟩

/-- Three source documents under scope `Z`. -/
def c1xStore : Store :=
  [("Z/a/a.pdf", .pdf [1]), ("Z/b/b.pdf", .pdf [2]), ("Z/c/c.pdf", .pdf [3])]

/-- Stage 1 context whose OCR transform always fails. -/
def c3xCtx : Ctx1 := ⟨"B", "Z", "m", none, fun _ => .error "boom", false⟩

/-- One source document under scope `Z`. -/
def c3xStore : Store := [("Z/a/a.pdf", .pdf [1])]

/-- Stage 1 context with an always-succeeding OCR transform. -/
def c6xC1 : Ctx1 := ⟨"B", "Z", "m", none, fun _ => .ok "text", false⟩

/-- One source document under scope `Z`. -/
def c6xS0 : Store := [("Z/a/a.pdf", .pdf [1])]

/-- The stage 1 run feeding the chaining counterexample. -/
def c6xO1 : StageOut := runStage1 c6xC1 c6xS0

/-- Stage 2 context with an always-succeeding extraction transform. -/
def c6xC2 : Ctx2 :=
  ⟨"B", "Z", "m", fun _ => .ok [("applicant_name", .str "x")], false⟩

/-- The stage 2 run over the persisted stage 1 manifest. -/
def c6xO2 : StageOut :=
  (runStage2 c6xC2 false c6xO1.store).toOption.getD ⟨[], [], 0, false, false⟩

/-- Stage 3 context with no mapping rows and identity cleaners. -/
def c6xC3 : Ctx3 := ⟨"B", "Z", fun _ => none, fun f _ => f, fun f => f, false⟩


/-- Expected stage 1 outcome for one listed key in a well-formed run:
a success entry when every page OCRs, nothing when a page fails. -/
def exp1 (c : Ctx1) (p key : String) (pgs : List Nat) : Option Entry :=
  match (ocrAll c.ocr (effPages c pgs)).1 with
  | .ok texts => some (okEntry1 c.bucket key (stage1OutKey p key) texts.length)
  | .error _ => none

/-- Non-interference invariant for a stage 1 run over the listed PDF
keys: every key holds a PDF blob (`pgs` names its pages), output keys
are fresh and pairwise distinct, and no output key collides with a
listed source key. -/
structure S1Inv (c : Ctx1) (p : String) (s : Store) (keys : List String)
    (pgs : String → List Nat) : Prop where
  blob : ∀ k ∈ keys, storeGet s k = some (.pdf (pgs k))
  fresh : ∀ k ∈ keys, storeHasKey s (stage1OutKey p k) = false
  nodup : (keys.map (stage1OutKey p)).Nodup
  disj : ∀ k ∈ keys, ∀ k2 ∈ keys, ¬ stage1OutKey p k = k2

/-- An entry yields a stage 2 work item iff both its keys are present
and truthy (its `status` plays no role). -/
def keysPresent2 (item : JVal) : Bool :=
  (pdfKeyOf item).isSome && (truthyStrGet item "ocr_json_s3_key").isSome

/-- Stage 3 eligibility: prior status `ok`/`skipped_exists` plus
usable keys. -/
def eligible3 (item : JVal) : Bool :=
  (["ok", "skipped_exists"] : List String).contains (statusLowerOf item)
  && (pdfKeyOf item).isSome
  && (truthyStrGet item "fext_json_s3_key").isSome

/-- The status stage 2 records for a processed item with the given
page texts: `ok` when the transform succeeds, `error` otherwise. -/
def fextStatus (c : Ctx2) (texts : List String) : String :=
  match c.fext (String.intercalate "\n\n" texts) with
  | .ok _ => "ok"
  | .error _ => "error"

/-- Non-interference invariant for a stage 2 run over manifest entries
`items` (each an object).  The functions `pk`, `okky`, `pay`, `tx`
name each entry pdf key, OCR key, OCR payload and page texts.  It
captures a well-formed run: keys present, OCR inputs present with
nonempty text, outputs fresh, and no key collisions. -/
structure S2Inv (c : Ctx2) (s : Store) (items : List Entry)
    (pk okky : Entry → String) (pay : Entry → JVal)
    (tx : Entry → List String) : Prop where
  keys1 : ∀ e ∈ items, pdfKeyOf (.obj e) = some (pk e)
  keys2 : ∀ e ∈ items, truthyStrGet (.obj e) "ocr_json_s3_key" = some (okky e)
  ocrBlob : ∀ e ∈ items, storeGet s (okky e) = some (.json (pay e))
  texts : ∀ e ∈ items, pageTextsOf (pay e) = some (tx e)
  textsNe : ∀ e ∈ items, ¬ tx e = []
  fresh : ∀ e ∈ items, storeHasKey s (fextKeyOf (pk e)) = false
  nodup : (items.map (fun e => fextKeyOf (pk e))).Nodup
  disj : ∀ e ∈ items, ∀ e2 ∈ items, ¬ fextKeyOf (pk e) = okky e2

/-- Non-interference invariant for a stage 3 run: every eligible entry
has usable keys (`pk`, `fkk`), its features payload is a stored JSON
object (`flds`), its clean output key is fresh, eligible clean keys
are pairwise distinct, and clean keys never collide with features
keys. -/
structure S3Inv (c : Ctx3) (s : Store) (items : List Entry)
    (pk fkk : Entry → String)
    (flds : Entry → List (String × JVal)) : Prop where
  keys1 : ∀ e ∈ items, eligible3 (.obj e) = true →
    pdfKeyOf (.obj e) = some (pk e)
  keys2 : ∀ e ∈ items, eligible3 (.obj e) = true →
    truthyStrGet (.obj e) "fext_json_s3_key" = some (fkk e)
  blob : ∀ e ∈ items, eligible3 (.obj e) = true →
    storeGet s (fkk e) = some (.json (.obj (flds e)))
  fresh : ∀ e ∈ items, eligible3 (.obj e) = true →
    storeHasKey s (cleanKeyOf (pk e)) = false
  nodup : ((items.filter (fun e => eligible3 (.obj e))).map
    (fun e => cleanKeyOf (pk e))).Nodup
  disj : ∀ e ∈ items, eligible3 (.obj e) = true →
    ∀ e2 ∈ items, eligible3 (.obj e2) = true →
      ¬ cleanKeyOf (pk e) = fkk e2

/-- Concrete stage 3 instance for evaluating `processEntry3` on an
eligible item whose features payload exists. -/
def c9xCtx : Ctx3 := ⟨"B", "Z", fun _ => none, fun f _ => f, fun f => f, false⟩

def c9xStore : Store :=
  [("Z/a/fext/a.features.json",
    .json (.obj [("schema_version", .str "haryana_clu_v1"),
                 ("model_id", .str "m"),
                 ("features", .obj [("district", .str "X")])]))]

def c9xItem : JVal :=
  .obj [("input_pdf_s3_key", .str "Z/a/a.pdf"),
        ("fext_json_s3_key", .str "Z/a/fext/a.features.json"),
        ("status", .str "ok")]

def c9xRes : Store × Option Entry × Nat × Option String :=
  (processEntry3 c9xCtx false c9xStore none c9xItem).toOption.getD
    ([], none, 0, none)

/-- Stage 2 context whose transform succeeds with no fields. -/
def c3yCtx : Ctx2 := ⟨"B", "Z", "m", fun _ => .ok [], false⟩

/-- An OCR payload whose `pages` list is empty. -/
def c3yStore : Store := [("Z/a/ocr/a.ocr.json", .json (.obj [("pages", .arr [])]))]

/-- A well-keyed stage 2 manifest entry for that document. -/
def c3yItem : JVal :=
  .obj [("input_pdf_s3_key", .str "Z/a/a.pdf"),
        ("ocr_json_s3_key", .str "Z/a/ocr/a.ocr.json")]

/-- Result of a concrete one-item stage 3 loop. -/
def c3zRes : Store × List Entry × Nat × Option String :=
  (stage3Loop c9xCtx false c9xStore none [c9xItem]).toOption.getD
    ([], [], 0, none)

/-- A manifest entry with usable keys whose status is `error`. -/
def c6yItem : JVal :=
  .obj [("input_pdf_s3_key", .str "Z/a/a.pdf"),
        ("ocr_json_s3_key", .str "Z/a/ocr/a.ocr.json"),
        ("status", .str "error")]

/-- Stage 2 context whose transform always fails. -/
def c1wC : Ctx2 := ⟨"B", "Z", "m", fun _ => .error "boom", false⟩

/-- A stored OCR payload with one nonempty page text. -/
def c1wS : Store :=
  [("Z/a/ocr/a.ocr.json",
    .json (.obj [("pages", .arr [.obj [("text", .str "hello")]])]))]

/-- A well-keyed prior manifest entry for that document. -/
def c1wE : Entry :=
  [("input_pdf_s3_key", .str "Z/a/a.pdf"),
   ("ocr_json_s3_key", .str "Z/a/ocr/a.ocr.json")]

/-- The stage 2 payload stored at the OCR key of `c1wE`. -/
def c1wPay : JVal := .obj [("pages", .arr [.obj [("text", .str "hello")]])]

/-- Pipeline contexts for the empty-scope run. -/
def c8xC1 : Ctx1 := ⟨"B", "Z", "m", none, fun _ => .ok "t", false⟩

def c8xC2 : Ctx2 := ⟨"B", "Z", "m", fun _ => .ok [], false⟩

def c8xC3 : Ctx3 := ⟨"B", "Z", fun _ => none, fun f _ => f, fun f => f, false⟩

/-- Entry form of the eligible stage 3 item used for run-twice runs. -/
def c9xEntry : Entry :=
  [("input_pdf_s3_key", .str "Z/a/a.pdf"),
   ("fext_json_s3_key", .str "Z/a/fext/a.features.json"),
   ("status", .str "ok")]

/-- Fields of the stored features payload of `c9xEntry`. -/
def c7wFlds : List (String × JVal) :=
  [("schema_version", .str "haryana_clu_v1"), ("model_id", .str "m"),
   ("features", .obj [("district", .str "X")])]

/-- A store holding a stage 1 manifest and the OCR payload it names. -/
def c7wS2 : Store :=
  [("Z/manifest.json", .json (.arr [.obj c1wE])),
   ("Z/a/ocr/a.ocr.json", .json c1wPay)]

/-- A store holding a stage 2 manifest and the features payload it
names. -/
def c7wS3 : Store :=
  [("Z/manifest_fext.json", .json (.arr [.obj c9xEntry])),
   ("Z/a/fext/a.features.json", .json (.obj c7wFlds))]

theorem bedrockGo_fail_ok {A : Type} (op : Nat → Except String A) (a : A) :
    ∀ (K r a0 : Nat) (last : Option String),
      (∀ i, i < K → ∃ e, op (a0 + i) = .error e) →
      op (a0 + K) = .ok a → K < r →
      bedrockRetryGo op r a0 last =
        ⟨.ok a, K + 1, (List.range K).map (fun i => backoffDelay (a0 + i))⟩ := by
  intro K
  induction K with
  | zero =>
    intro r a0 last _ hok hK
    match r, hK with
    | r' + 1, _ =>
      rw [Nat.add_zero] at hok
      simp [bedrockRetryGo, hok]
  | succ K ih =>
    intro r a0 last hfail hok hK
    match r, hK with
    | r' + 1, hK =>
      obtain ⟨e, he⟩ := hfail 0 (Nat.succ_pos K)
      rw [Nat.add_zero] at he
      have hrest := ih r' (a0 + 1) (some e)
        (fun i hi => by
          obtain ⟨e2, he2⟩ := hfail (i + 1) (by omega)
          exact ⟨e2, by rw [show a0 + 1 + i = a0 + (i + 1) by omega]; exact he2⟩)
        (by rw [show a0 + 1 + K = a0 + (K + 1) by omega]; exact hok)
        (by omega)
      simp only [bedrockRetryGo, he, hrest, RetryOut.mk.injEq]
      refine ⟨trivial, trivial, ?_⟩
      rw [List.range_succ_eq_map]
      simp only [List.map_cons, List.map_map, Nat.add_zero]
      refine congrArg _ (List.map_congr_left (fun i _ => ?_))
      simp only [Function.comp]
      congr 1
      omega

theorem bedrockGo_all_fail {A : Type} (op : Nat → Except String A)
    (err : Nat → String) :
    ∀ (r a0 : Nat) (last : Option String),
      1 ≤ r →
      (∀ i, i < r → op (a0 + i) = .error (err (a0 + i))) →
      bedrockRetryGo op r a0 last =
        ⟨.error (some (err (a0 + r - 1))), r,
          (List.range r).map (fun i => backoffDelay (a0 + i))⟩ := by
  intro r
  induction r with
  | zero => omega
  | succ r ih =>
    intro a0 last _ hfail
    have he := hfail 0 (Nat.succ_pos r)
    rw [Nat.add_zero] at he
    by_cases hr : r = 0
    · subst hr
      simp [bedrockRetryGo, he, List.range_succ_eq_map]
    · have hrest := ih (a0 + 1) (some (err a0)) (by omega)
        (fun i hi => by
          rw [show a0 + 1 + i = a0 + (i + 1) by omega]
          exact hfail (i + 1) (by omega))
      simp only [bedrockRetryGo, he, hrest, RetryOut.mk.injEq]
      refine ⟨?_, trivial, ?_⟩
      · have : a0 + 1 + r - 1 = a0 + (r + 1) - 1 := by omega
        rw [this]
      · rw [List.range_succ_eq_map]
        simp only [List.map_cons, List.map_map, Nat.add_zero]
        refine congrArg _ (List.map_congr_left (fun i _ => ?_))
        simp only [Function.comp]
        congr 1
        omega

theorem openaiGo_fail_ok {A : Type} (op : Nat → Except String A) (a : A)
    (retries : Nat) :
    ∀ (K r a0 : Nat) (last : Option String),
      (∀ i, i < K → ∃ e, op (a0 + i) = .error e) →
      op (a0 + K) = .ok a → K < r → a0 + K ≤ retries →
      openaiRetryGo op retries r a0 last =
        ⟨.ok a, K + 1, (List.range K).map (fun i => backoffDelay (a0 + i))⟩ := by
  intro K
  induction K with
  | zero =>
    intro r a0 last _ hok hK _
    match r, hK with
    | r' + 1, _ =>
      rw [Nat.add_zero] at hok
      simp [openaiRetryGo, hok]
  | succ K ih =>
    intro r a0 last hfail hok hK hbound
    match r, hK with
    | r' + 1, hK =>
      obtain ⟨e, he⟩ := hfail 0 (Nat.succ_pos K)
      rw [Nat.add_zero] at he
      have hrest := ih r' (a0 + 1) (some e)
        (fun i hi => by
          obtain ⟨e2, he2⟩ := hfail (i + 1) (by omega)
          exact ⟨e2, by rw [show a0 + 1 + i = a0 + (i + 1) by omega]; exact he2⟩)
        (by rw [show a0 + 1 + K = a0 + (K + 1) by omega]; exact hok)
        (by omega) (by omega)
      have hlt : a0 < retries := by omega
      simp only [openaiRetryGo, he, hrest, if_pos hlt, RetryOut.mk.injEq]
      refine ⟨trivial, trivial, ?_⟩
      rw [List.range_succ_eq_map]
      simp only [List.map_cons, List.map_map, Nat.add_zero]
      refine congrArg _ (List.map_congr_left (fun i _ => ?_))
      simp only [Function.comp]
      congr 1
      omega

theorem openaiGo_all_fail {A : Type} (op : Nat → Except String A)
    (err : Nat → String) (retries : Nat) :
    ∀ (r a0 : Nat) (last : Option String),
      1 ≤ r →
      (∀ i, i < r → op (a0 + i) = .error (err (a0 + i))) →
      (openaiRetryGo op retries r a0 last).result =
          .error (some (err (a0 + r - 1)))
        ∧ (openaiRetryGo op retries r a0 last).calls = r := by
  intro r
  induction r with
  | zero => omega
  | succ r ih =>
    intro a0 last _ hfail
    have he := hfail 0 (Nat.succ_pos r)
    rw [Nat.add_zero] at he
    by_cases hr : r = 0
    · subst hr
      simp [openaiRetryGo, he]
    · have hrest := ih (a0 + 1) (some (err a0)) (by omega)
        (fun i hi => by
          rw [show a0 + 1 + i = a0 + (i + 1) by omega]
          exact hfail (i + 1) (by omega))
      simp only [openaiRetryGo, he]
      constructor
      · show (openaiRetryGo op retries r (a0 + 1) (some (err a0))).result = _
        rw [hrest.1]
        have : a0 + 1 + r - 1 = a0 + (r + 1) - 1 := by omega
        rw [this]
      · show (openaiRetryGo op retries r (a0 + 1) (some (err a0))).calls + 1 = r + 1
        rw [hrest.2]

theorem find?_key_filter (s : Store) (k k2 : String) (h : ¬ k2 = k) :
    List.find? (fun p => p.1 == k2) (s.filter (fun p => !(p.1 == k)))
      = List.find? (fun p => p.1 == k2) s := by
  have hkk : (k == k2) = false := by simpa using fun hh => h hh.symm
  induction s with
  | nil => rfl
  | cons p rest ih =>
    by_cases hp : p.1 = k
    · have hq : ¬ p.1 = k2 := by rw [hp]; exact fun hh => h hh.symm
      simp [List.filter_cons, List.find?_cons, hp, hq, ih, hkk]
    · by_cases hq : p.1 = k2
      · simp [List.filter_cons, List.find?_cons, hp, hq, h]
      · simp [List.filter_cons, List.find?_cons, hp, hq, ih]

theorem storeGet_put_self (s : Store) (k : String) (b : Blob) :
    storeGet (storePut s k b) k = some b := by
  simp [storeGet, storePut]

theorem storeGet_put_ne (s : Store) (k k2 : String) (b : Blob) (h : ¬ k2 = k) :
    storeGet (storePut s k b) k2 = storeGet s k2 := by
  simp only [storeGet, storePut]
  rw [List.find?_cons_of_neg]
  · rw [find?_key_filter s k k2 h]
  · simpa using fun hh => h hh.symm

theorem storeHasKey_put (s : Store) (k k2 : String) (b : Blob) :
    storeHasKey (storePut s k b) k2 = (k2 == k || storeHasKey s k2) := by
  by_cases h : k2 = k
  · subst h
    simp [storeHasKey, storeGet_put_self]
  · rw [storeHasKey, storeGet_put_ne s k k2 b h]
    have : (k2 == k) = false := by simpa using h
    simp [this, storeHasKey]

theorem storeHasKey_put_mono (s : Store) (k k2 : String) (b : Blob)
    (h : storeHasKey s k2 = true) : storeHasKey (storePut s k b) k2 = true := by
  rw [storeHasKey_put, h, Bool.or_true]

/-- At least one attempt is made whenever budget remains. -/
theorem bedrockGo_calls_pos {A : Type} (op : Nat → Except String A)
    (r a0 : Nat) (last : Option String) (h : 1 ≤ r) :
    1 ≤ (bedrockRetryGo op r a0 last).calls := by
  match r, h with
  | r' + 1, _ =>
    simp only [bedrockRetryGo]
    cases op a0 <;> simp

/-- At least one attempt is made whenever budget remains. -/
theorem openaiGo_calls_pos {A : Type} (op : Nat → Except String A)
    (retries r a0 : Nat) (last : Option String) (h : 1 ≤ r) :
    1 ≤ (openaiRetryGo op retries r a0 last).calls := by
  match r, h with
  | r' + 1, _ =>
    simp only [openaiRetryGo]
    cases op a0 <;> simp

/-- Unfolding one failing attempt of the Bedrock loop. -/
theorem bedrockGo_calls_step {A : Type} (op : Nat → Except String A)
    (r a0 : Nat) (last : Option String) (e : String) (h : op a0 = .error e) :
    (bedrockRetryGo op (r + 1) a0 last).calls
      = (bedrockRetryGo op r (a0 + 1) (some e)).calls + 1 := by
  simp only [bedrockRetryGo, h]

/-- Unfolding one failing attempt of the OpenAI loop. -/
theorem openaiGo_calls_step {A : Type} (op : Nat → Except String A)
    (retries r a0 : Nat) (last : Option String) (e : String)
    (h : op a0 = .error e) :
    (openaiRetryGo op retries (r + 1) a0 last).calls
      = (openaiRetryGo op retries r (a0 + 1) (some e)).calls + 1 := by
  simp only [openaiRetryGo, h]

/-- The backoff formula is monotone in the attempt number. -/
theorem backoffDelay_mono {a b : Nat} (h : a ≤ b) :
    backoffDelay a ≤ backoffDelay b := by
  unfold backoffDelay
  refine min_le_min le_rfl ?_
  refine mul_le_mul_of_nonneg_left ?_ (by norm_num)
  exact pow_le_pow_right₀ (by norm_num) (Nat.sub_le_sub_right h 1)

/-- Any run of consecutive backoff sleeps is non-decreasing. -/
theorem sorted_backoff (K a0 : Nat) :
    List.Sorted (· ≤ ·)
      ((List.range K).map (fun i => backoffDelay (a0 + i))) := by
  rw [List.Sorted, List.pairwise_map]
  exact (List.pairwise_lt_range K).imp
    (fun h => backoffDelay_mono (by omega))

/-- C4: through the retry logic, an operation failing on its first K
attempts and succeeding on attempt K+1 (K < max_attempts) returns the
successful result after exactly K+1 invocations and exactly K backoff
sleeps; the sleeps are non-decreasing, and the delay before attempt k
is 0.7 * 2 ^ (k - 2) capped at 20 seconds; an operation failing on
every attempt makes exactly max_attempts invocations, no more, and the
raised error wraps the last underlying exception.  Both executors
(Bedrock OCR and OpenAI extraction) satisfy this. -/
theorem c4_retry_accounting {A : Type} (op op2 : Nat → Except String A)
    (a : A) (K retries retries2 : Nat) (err2 : Nat → String)
    (hfail : ∀ i, i < K → ∃ e, op (i + 1) = .error e)
    (hok : op (K + 1) = .ok a)
    (hK : K < retries)
    (hr2 : 1 ≤ retries2)
    (hall : ∀ i, i < retries2 → op2 (i + 1) = .error (err2 (i + 1))) :
    (bedrockRetry op retries).result = .ok a
    ∧ (bedrockRetry op retries).calls = K + 1
    ∧ (bedrockRetry op retries).sleeps
        = (List.range K).map (fun i => min 20 ((7 / 10 : ℚ) * 2 ^ i))
    ∧ List.Sorted (· ≤ ·) (bedrockRetry op retries).sleeps
    ∧ (openaiRetryRun op retries).result = .ok a
    ∧ (openaiRetryRun op retries).calls = K + 1
    ∧ (openaiRetryRun op retries).sleeps
        = (List.range K).map (fun i => min 20 ((7 / 10 : ℚ) * 2 ^ i))
    ∧ List.Sorted (· ≤ ·) (openaiRetryRun op retries).sleeps
    ∧ (bedrockRetry op2 retries2).result = .error (some (err2 retries2))
    ∧ (bedrockRetry op2 retries2).calls = retries2
    ∧ (openaiRetryRun op2 retries2).result = .error (some (err2 retries2))
    ∧ (openaiRetryRun op2 retries2).calls = retries2 := by
  have hfail1 : ∀ i, i < K → ∃ e, op (1 + i) = .error e := by
    intro i hi
    obtain ⟨e, he⟩ := hfail i hi
    exact ⟨e, by rw [show 1 + i = i + 1 by omega]; exact he⟩
  have hok1 : op (1 + K) = .ok a := by
    rw [show 1 + K = K + 1 by omega]; exact hok
  have hall1 : ∀ i, i < retries2 → op2 (1 + i) = .error (err2 (1 + i)) := by
    intro i hi
    rw [show 1 + i = i + 1 by omega]
    exact hall i hi
  have hb := bedrockGo_fail_ok op a K retries 1 none hfail1 hok1 hK
  have ho := openaiGo_fail_ok op a retries K retries 1 none hfail1 hok1 hK
    (by omega)
  have hb2 := bedrockGo_all_fail op2 err2 retries2 1 none hr2 hall1
  have ho2 := openaiGo_all_fail op2 err2 retries2 retries2 1 none hr2 hall1
  have hsl : (List.range K).map (fun i => backoffDelay (1 + i))
      = (List.range K).map (fun i => min 20 ((7 / 10 : ℚ) * 2 ^ i)) := by
    refine List.map_congr_left (fun i _ => ?_)
    have h1i : 1 + i - 1 = i := by omega
    simp only [backoffDelay, h1i]
  have hb' : bedrockRetry op retries =
      ⟨.ok a, K + 1, (List.range K).map (fun i => backoffDelay (1 + i))⟩ := hb
  have ho' : openaiRetryRun op retries =
      ⟨.ok a, K + 1, (List.range K).map (fun i => backoffDelay (1 + i))⟩ := ho
  have hb2' : bedrockRetry op2 retries2 =
      ⟨.error (some (err2 (1 + retries2 - 1))), retries2,
        (List.range retries2).map (fun i => backoffDelay (1 + i))⟩ := hb2
  have hidx : 1 + retries2 - 1 = retries2 := by omega
  refine ⟨?_, ?_, ?_, ?_, ?_, ?_, ?_, ?_, ?_, ?_, ?_, ?_⟩
  · rw [hb']
  · rw [hb']
  · rw [hb']; exact hsl
  · rw [hb']; exact sorted_backoff K 1
  · rw [ho']
  · rw [ho']
  · rw [ho']; exact hsl
  · rw [ho']; exact sorted_backoff K 1
  · rw [hb2']; rw [hidx]
  · rw [hb2']
  · have := ho2.1; rw [hidx] at this; exact this
  · exact ho2.2

/-- C4 witness: an operation failing twice then succeeding under a
budget of 4, and an operation failing always under a budget of 3. -/
theorem c4_retry_accounting_witness :
    (bedrockRetry (fun k => if k ≤ 2 then .error "boom" else .ok 7) 4).result = .ok 7
    ∧ (bedrockRetry (fun k => if k ≤ 2 then .error "boom" else .ok 7) 4).calls = 2 + 1
    ∧ (bedrockRetry (fun k => if k ≤ 2 then .error "boom" else .ok 7) 4).sleeps
        = (List.range 2).map (fun i => min 20 ((7 / 10 : ℚ) * 2 ^ i))
    ∧ List.Sorted (· ≤ ·)
        (bedrockRetry (fun k => if k ≤ 2 then .error "boom" else .ok 7) 4).sleeps
    ∧ (openaiRetryRun (fun k => if k ≤ 2 then .error "boom" else .ok 7) 4).result = .ok 7
    ∧ (openaiRetryRun (fun k => if k ≤ 2 then .error "boom" else .ok 7) 4).calls = 2 + 1
    ∧ (openaiRetryRun (fun k => if k ≤ 2 then .error "boom" else .ok 7) 4).sleeps
        = (List.range 2).map (fun i => min 20 ((7 / 10 : ℚ) * 2 ^ i))
    ∧ List.Sorted (· ≤ ·)
        (openaiRetryRun (fun k => if k ≤ 2 then .error "boom" else .ok 7) 4).sleeps
    ∧ (bedrockRetry (fun _ => (.error "fail" : Except String Nat)) 3).result
        = .error (some "fail")
    ∧ (bedrockRetry (fun _ => (.error "fail" : Except String Nat)) 3).calls = 3
    ∧ (openaiRetryRun (fun _ => (.error "fail" : Except String Nat)) 3).result
        = .error (some "fail")
    ∧ (openaiRetryRun (fun _ => (.error "fail" : Except String Nat)) 3).calls = 3 :=
  c4_retry_accounting (fun k => if k ≤ 2 then .error "boom" else .ok 7)
    (fun _ => .error "fail") 7 2 4 3 (fun _ => "fail")
    (fun i hi => ⟨"boom", by
      show (if i + 1 ≤ 2 then (Except.error "boom" : Except String Nat) else .ok 7)
        = .error "boom"
      rw [if_pos (by omega : i + 1 ≤ 2)]⟩)
    rfl (by decide) (by decide) (fun i _ => rfl)

/-- C5 counterexample: the claim states that a fatal configuration
error (such as missing credentials) propagates immediately without
consuming further attempts, for every remote-transform call.  The
Bedrock OCR retry loop classifies nothing: a deterministic
credentials error is retried on all six attempts (six invocations, not
one) before being wrapped. -/
theorem c5_classification_cex :
    (bedrockRetry
      (fun _ => (.error "NoCredentialsError: Unable to locate credentials"
        : Except String String)) 6).calls = 6
    ∧ (bedrockRetry
      (fun _ => (.error "NoCredentialsError: Unable to locate credentials"
        : Except String String)) 6).result
        = .error (some "NoCredentialsError: Unable to locate credentials") :=
  ⟨rfl, rfl⟩

/-- C5 amended: no per-error classification happens inside either
retry loop — every exception is retried until the budget is spent.
The only fatal-without-retry path is the OpenAI client construction
check: a missing or empty OPENAI_API_KEY raises before the retry loop
starts, with zero transform invocations. -/
theorem c5_classification_amended :
    (∀ (op : Nat → Except String (List (String × JVal))) (r : Nat),
        openaiExtractModel none op r = .error "OPENAI_API_KEY is not set."
        ∧ openaiExtractModel (some "") op r = .error "OPENAI_API_KEY is not set.")
    ∧ (∀ (A : Type) (op : Nat → Except String A) (r : Nat) (e : String),
        op 1 = .error e → 2 ≤ r →
        2 ≤ (bedrockRetry op r).calls ∧ 2 ≤ (openaiRetryRun op r).calls) := by
  constructor
  · intro op r
    exact ⟨rfl, rfl⟩
  · intro A op r e h1 hr
    obtain ⟨r2, rfl⟩ : ∃ r2, r = r2 + 1 + 1 := ⟨r - 2, by omega⟩
    constructor
    · show 2 ≤ (bedrockRetryGo op (r2 + 1 + 1) 1 none).calls
      rw [bedrockGo_calls_step op (r2 + 1) 1 none e h1]
      have := bedrockGo_calls_pos op (r2 + 1) (1 + 1) (some e) (by omega)
      omega
    · show 2 ≤ (openaiRetryGo op (r2 + 1 + 1) (r2 + 1 + 1) 1 none).calls
      rw [openaiGo_calls_step op (r2 + 1 + 1) (r2 + 1) 1 none e h1]
      have := openaiGo_calls_pos op (r2 + 1 + 1) (r2 + 1) (1 + 1) (some e) (by omega)
      omega

/-- C5 amended witness: a two-attempt budget retries the failing first
attempt instead of propagating it. -/
theorem c5_classification_amended_witness :
    2 ≤ (bedrockRetry (fun _ => (.error "x" : Except String Nat)) 2).calls
    ∧ 2 ≤ (openaiRetryRun (fun _ => (.error "x" : Except String Nat)) 2).calls :=
  c5_classification_amended.2 Nat (fun _ => .error "x") 2 "x" rfl (by decide)

/-- C10: the existence check returns true when head_object succeeds,
false exactly for a ClientError whose code is 404, NoSuchKey or
NotFound, and re-raises every other failure unchanged; the three
per-stage copies agree on every input. -/
theorem c10_key_exists_spec :
    (∀ h : HeadRes, s3KeyExistsS1 h = s3KeyExistsS2 h
        ∧ s3KeyExistsS3 h = s3KeyExistsS2 h)
    ∧ s3KeyExistsS2 .ok = .ok true
    ∧ (∀ code, s3KeyExistsS2 (.clientError code)
        = if code ∈ notFoundCodes then .ok false
          else .error (.clientError code))
    ∧ (∀ n, s3KeyExistsS2 (.exc n) = .error (.exc n)) := by
  refine ⟨?_, rfl, fun code => rfl, fun n => rfl⟩
  intro h
  cases h with
  | ok => exact ⟨rfl, rfl⟩
  | exc n => exact ⟨rfl, rfl⟩
  | clientError code =>
    refine ⟨?_, rfl⟩
    by_cases hc : code = "NoSuchKey"
    · subst hc
      simp [s3KeyExistsS1, s3KeyExistsS2, notFoundCodes]
    · simp [s3KeyExistsS1, s3KeyExistsS2, hc]

/-- C2 (code bug): main.py passes force= to run_stage_01_ocr_from_s3,
whose signature has no such parameter, so every ocr and pipeline CLI
invocation raises TypeError before any stage body runs; in particular
the force flag never re-generates OCR outputs (the stage 1 skip check
is unconditional). -/
theorem c2_force_flag_stage1_type_error :
    (∀ (c : Ctx1) (s : Store),
      mainOcrCmd c s = .error (.typeError
        "run_stage_01_ocr_from_s3 got an unexpected keyword argument force"))
    ∧ (∀ (c1 : Ctx1) (c2 : Ctx2) (c3 : Ctx3) (force : Bool) (s : Store),
      mainPipelineCmd c1 c2 c3 force s = .error (.typeError
        "run_stage_01_ocr_from_s3 got an unexpected keyword argument force")) := by
  refine ⟨fun c s => ?_, fun c1 c2 c3 force s => ?_⟩
  · rfl
  · rfl

/-- The status field of a stage 2 entry is the status it was built with. -/
theorem entry2_statusOf (b p o f st : String) :
    statusOf (entry2 b p o f st) = st := rfl

/-- With usable keys, stage 2 produces exactly one entry for the item,
carrying one of the four stage 2 statuses. -/
theorem processEntry2_some (c : Ctx2) (force : Bool) (s : Store) (it : JVal)
    (pdfKey ocrKey : String)
    (hk : pdfKeyOf it = some pdfKey)
    (ho : truthyStrGet it "ocr_json_s3_key" = some ocrKey) :
    ∃ st, st ∈ (["ok", "skipped_exists", "no_ocr_text", "error"] : List String)
      ∧ (processEntry2 c force s it).2.1
          = some (entry2 c.bucket pdfKey ocrKey (fextKeyOf pdfKey) st) := by
  simp only [processEntry2, hk, ho]
  repeat' split
  all_goals first
    | exact ⟨"skipped_exists", by simp, rfl⟩
    | exact ⟨"ok", by simp, rfl⟩
    | exact ⟨"no_ocr_text", by simp, rfl⟩
    | exact ⟨"error", by simp, rfl⟩

/-- Without usable keys the item is dropped and nothing happens. -/
theorem processEntry2_none (c : Ctx2) (force : Bool) (s : Store) (it : JVal)
    (h : keysPresent2 it = false) :
    processEntry2 c force s it = (s, none, 0) := by
  cases hk : pdfKeyOf it with
  | none => simp [processEntry2, hk]
  | some pdfKey =>
    cases ho : truthyStrGet it "ocr_json_s3_key" with
    | some ok2 =>
      rw [keysPresent2, hk, ho] at h
      simp at h
    | none => simp [processEntry2, hk, ho]

/-- Stage 2 loop shape, unconditionally: the manifest has one entry
per entry with usable keys (status never filters anything), and every
produced status is one of the four stage 2 statuses. -/
theorem stage2_loop_shape (c : Ctx2) (force : Bool) :
    ∀ (items : List JVal) (s : Store),
      (stage2Loop c force s items).2.1.length
          = (items.filter keysPresent2).length
      ∧ ∀ en ∈ (stage2Loop c force s items).2.1,
          statusOf en ∈ (["ok", "skipped_exists", "no_ocr_text", "error"] : List String) := by
  intro items
  induction items with
  | nil => intro s; simp [stage2Loop]
  | cons it rest ih =>
    intro s
    cases hkp : keysPresent2 it with
    | false =>
      have hnone := processEntry2_none c force s it hkp
      simp only [stage2Loop, hnone, List.filter_cons, hkp]
      have := ih s
      constructor
      · simpa using this.1
      · simpa using this.2
    | true =>
      have hk1 : (pdfKeyOf it).isSome = true := by
        rw [keysPresent2] at hkp
        exact (Bool.and_eq_true_iff.mp hkp).1
      have hk2 : (truthyStrGet it "ocr_json_s3_key").isSome = true := by
        rw [keysPresent2] at hkp
        exact (Bool.and_eq_true_iff.mp hkp).2
      obtain ⟨pdfKey, hk⟩ := Option.isSome_iff_exists.mp hk1
      obtain ⟨ocrKey, ho⟩ := Option.isSome_iff_exists.mp hk2
      obtain ⟨st, hst, hsome⟩ := processEntry2_some c force s it pdfKey ocrKey hk ho
      have ihs := ih (processEntry2 c force s it).1
      simp only [stage2Loop, List.filter_cons, hkp]
      constructor
      · show (((processEntry2 c force s it).2.1).toList
            ++ (stage2Loop c force (processEntry2 c force s it).1 rest).2.1).length = _
        rw [hsome]
        simp only [Option.toList_some, List.length_cons, List.length_append,
          List.singleton_append]
        rw [ihs.1]
        simp
      · intro en hen
        revert hen
        show en ∈ ((processEntry2 c force s it).2.1).toList
            ++ (stage2Loop c force (processEntry2 c force s it).1 rest).2.1 → _
        rw [hsome]
        intro hen
        rcases List.mem_append.mp hen with h1 | h2
        · have he : en = entry2 c.bucket pdfKey ocrKey (fextKeyOf pdfKey) st := by
            simpa using h1
          rw [he, entry2_statusOf]
          exact hst
        · exact ihs.2 en h2

/-- Behaviour of one stage 2 item in a well-formed situation: keys
usable, OCR payload present with nonempty text, output key fresh.  The
transform is invoked once; `ok` writes exactly the output key, `error`
writes nothing. -/
theorem processEntry2_run (c : Ctx2) (s : Store) (e : Entry)
    (pdfKey ocrKey : String) (pay : JVal) (tx : List String)
    (hk : pdfKeyOf (.obj e) = some pdfKey)
    (ho : truthyStrGet (.obj e) "ocr_json_s3_key" = some ocrKey)
    (hblob : storeGet s ocrKey = some (.json pay))
    (htx : pageTextsOf pay = some tx)
    (hne : ¬ tx = [])
    (hfresh : storeHasKey s (fextKeyOf pdfKey) = false) :
    (processEntry2 c false s (.obj e)).2.1
        = some (entry2 c.bucket pdfKey ocrKey (fextKeyOf pdfKey) (fextStatus c tx))
    ∧ (processEntry2 c false s (.obj e)).2.2 = 1
    ∧ (∀ k, ¬ k = fextKeyOf pdfKey →
        storeGet (processEntry2 c false s (.obj e)).1 k = storeGet s k)
    ∧ (∀ k, storeHasKey s k = true →
        storeHasKey (processEntry2 c false s (.obj e)).1 k = true)
    ∧ (fextStatus c tx = "ok" →
        storeHasKey (processEntry2 c false s (.obj e)).1 (fextKeyOf pdfKey) = true)
    ∧ (¬ fextStatus c tx = "ok" → (processEntry2 c false s (.obj e)).1 = s) := by
  have hie : tx.isEmpty = false := by
    cases tx
    · exact absurd rfl hne
    · rfl
  cases hf : c.fext (String.intercalate "\n\n" tx) with
  | ok feats =>
    have hst : fextStatus c tx = "ok" := by simp [fextStatus, hf]
    simp only [processEntry2, hk, ho, hfresh, hblob, htx, hie, hf,
      Bool.and_false, Bool.false_and, if_false, hst]
    refine ⟨rfl, rfl, ?_, ?_, ?_, ?_⟩
    · intro k hkne
      exact storeGet_put_ne s (fextKeyOf pdfKey) k _ hkne
    · intro k hkk
      exact storeHasKey_put_mono s (fextKeyOf pdfKey) k _ hkk
    · intro _
      simp [storeHasKey, storeGet_put_self]
    · intro hcontra
      exact absurd trivial hcontra
  | error msg =>
    have hst : fextStatus c tx = "error" := by simp [fextStatus, hf]
    simp only [processEntry2, hk, ho, hfresh, hblob, htx, hie, hf,
      Bool.and_false, Bool.false_and, if_false, hst]
    refine ⟨rfl, rfl, fun k _ => rfl, fun k hkk => hkk, ?_, fun _ => rfl⟩
    intro hok
    exact absurd hok (by decide)

/-- Simulation of a well-formed stage 2 run (`force = false`): one
entry per item in order, with status decided by the transform alone;
one transform call per item; the store gains exactly the output keys
of the `ok` items and nothing else changes. -/
theorem stage2_sim (c : Ctx2) :
    ∀ (items : List Entry) (s : Store) (pk okky : Entry → String)
      (pay : Entry → JVal) (tx : Entry → List String),
      S2Inv c s items pk okky pay tx →
      (stage2Loop c false s (items.map .obj)).2.1
          = items.map (fun e => entry2 c.bucket (pk e) (okky e)
              (fextKeyOf (pk e)) (fextStatus c (tx e)))
      ∧ (stage2Loop c false s (items.map .obj)).2.2 = items.length
      ∧ (∀ k, ¬ k ∈ items.map (fun e => fextKeyOf (pk e)) →
          storeGet (stage2Loop c false s (items.map .obj)).1 k = storeGet s k)
      ∧ (∀ k, storeHasKey s k = true →
          storeHasKey (stage2Loop c false s (items.map .obj)).1 k = true)
      ∧ (∀ e ∈ items, fextStatus c (tx e) = "ok" →
          storeHasKey (stage2Loop c false s (items.map .obj)).1
            (fextKeyOf (pk e)) = true)
      ∧ (∀ e ∈ items, ¬ fextStatus c (tx e) = "ok" →
          storeHasKey (stage2Loop c false s (items.map .obj)).1
            (fextKeyOf (pk e)) = false) := by
  intro items
  induction items with
  | nil =>
    intro s pk okky pay tx _
    simp [stage2Loop]
  | cons e rest ih =>
    intro s pk okky pay tx hinv
    have hmem : e ∈ e :: rest := List.mem_cons_self e rest
    have hrun := processEntry2_run c s e (pk e) (okky e) (pay e) (tx e)
      (hinv.keys1 e hmem) (hinv.keys2 e hmem) (hinv.ocrBlob e hmem)
      (hinv.texts e hmem) (hinv.textsNe e hmem) (hinv.fresh e hmem)
    obtain ⟨hman1, hcall1, hframe1, hmono1, hok1, hsame1⟩ := hrun
    have hnodup := hinv.nodup
    rw [List.map_cons, List.nodup_cons] at hnodup
    have hinv2 : S2Inv c (processEntry2 c false s (.obj e)).1 rest pk okky pay tx := by
      refine ⟨?_, ?_, ?_, ?_, ?_, ?_, hnodup.2, ?_⟩
      · exact fun e2 h2 => hinv.keys1 e2 (List.mem_cons_of_mem e h2)
      · exact fun e2 h2 => hinv.keys2 e2 (List.mem_cons_of_mem e h2)
      · intro e2 h2
        rw [hframe1 (okky e2)
          (fun hh => hinv.disj e hmem e2 (List.mem_cons_of_mem e h2) hh.symm)]
        exact hinv.ocrBlob e2 (List.mem_cons_of_mem e h2)
      · exact fun e2 h2 => hinv.texts e2 (List.mem_cons_of_mem e h2)
      · exact fun e2 h2 => hinv.textsNe e2 (List.mem_cons_of_mem e h2)
      · intro e2 h2
        have hne : ¬ fextKeyOf (pk e2) = fextKeyOf (pk e) := by
          intro hh
          exact hnodup.1 (hh ▸ List.mem_map_of_mem (fun x => fextKeyOf (pk x)) h2)
        rw [storeHasKey, hframe1 (fextKeyOf (pk e2)) hne]
        exact hinv.fresh e2 (List.mem_cons_of_mem e h2)
      · exact fun e2 h2 e3 h3 =>
          hinv.disj e2 (List.mem_cons_of_mem e h2) e3 (List.mem_cons_of_mem e h3)
    have ihres := ih (processEntry2 c false s (.obj e)).1 pk okky pay tx hinv2
    obtain ⟨ihman, ihcall, ihframe, ihmono, ihok, ihnok⟩ := ihres
    simp only [List.map_cons, stage2Loop]
    refine ⟨?_, ?_, ?_, ?_, ?_, ?_⟩
    · rw [hman1, ihman]
      simp
    · rw [hcall1, ihcall]
      simp [List.length_cons]
      omega
    · intro k hknot
      have hk1 : ¬ k = fextKeyOf (pk e) := by
        intro hh
        exact hknot (hh ▸ List.mem_cons_self _ _)
      have hk2 : ¬ k ∈ rest.map (fun e2 => fextKeyOf (pk e2)) := by
        intro hh
        exact hknot (List.mem_cons_of_mem _ hh)
      rw [ihframe k hk2, hframe1 k hk1]
    · intro k hkk
      exact ihmono k (hmono1 k hkk)
    · intro e2 h2 hst
      rcases List.mem_cons.mp h2 with he | he
      · subst he
        exact ihmono (fextKeyOf (pk e2)) (hok1 hst)
      · exact ihok e2 he hst
    · intro e2 h2 hnok
      rcases List.mem_cons.mp h2 with he | he
      · subst he
        rw [storeHasKey, ihframe (fextKeyOf (pk e2)) hnodup.1, hsame1 hnok]
        exact hinv.fresh e2 hmem
      · exact ihnok e2 he hnok

/-- An existing output key short-circuits the item to `skipped_exists`
with zero transform calls and no writes (`force = false`). -/
theorem processEntry2_skip (c : Ctx2) (s : Store) (it : JVal)
    (pdfKey ocrKey : String)
    (hk : pdfKeyOf it = some pdfKey)
    (ho : truthyStrGet it "ocr_json_s3_key" = some ocrKey)
    (hhas : storeHasKey s (fextKeyOf pdfKey) = true) :
    processEntry2 c false s it
      = (s, some (entry2 c.bucket pdfKey ocrKey (fextKeyOf pdfKey)
          "skipped_exists"), 0) := by
  simp [processEntry2, hk, ho, hhas]

/-- Second run of a well-formed stage 2 scope: items whose transform
succeeded the first time (their output now exists) are skipped; items
whose transform fails deterministically are re-tried and fail again;
the store is unchanged and the transform is called once per still
failing item only. -/
theorem stage2_run2_sim (c : Ctx2) :
    ∀ (items : List Entry) (s : Store) (pk okky : Entry → String)
      (pay : Entry → JVal) (tx : Entry → List String),
      (∀ e ∈ items, pdfKeyOf (.obj e) = some (pk e)) →
      (∀ e ∈ items, truthyStrGet (.obj e) "ocr_json_s3_key" = some (okky e)) →
      (∀ e ∈ items, storeGet s (okky e) = some (.json (pay e))) →
      (∀ e ∈ items, pageTextsOf (pay e) = some (tx e)) →
      (∀ e ∈ items, ¬ tx e = []) →
      (∀ e ∈ items, fextStatus c (tx e) = "ok" →
        storeHasKey s (fextKeyOf (pk e)) = true) →
      (∀ e ∈ items, ¬ fextStatus c (tx e) = "ok" →
        storeHasKey s (fextKeyOf (pk e)) = false) →
      (stage2Loop c false s (items.map .obj)).1 = s
      ∧ (stage2Loop c false s (items.map .obj)).2.1
          = items.map (fun e => entry2 c.bucket (pk e) (okky e)
              (fextKeyOf (pk e))
              (if fextStatus c (tx e) = "ok" then "skipped_exists" else "error"))
      ∧ (stage2Loop c false s (items.map .obj)).2.2
          = (items.filter (fun e => ¬ fextStatus c (tx e) = "ok")).length := by
  intro items
  induction items with
  | nil =>
    intro s pk okky pay tx _ _ _ _ _ _ _
    simp [stage2Loop]
  | cons e rest ih =>
    intro s pk okky pay tx h1 h2 h3 h4 h5 h6 h7
    have hmem : e ∈ e :: rest := List.mem_cons_self e rest
    have tailh := fun {α : Type} (h : ∀ x ∈ e :: rest, α) => h
    have ihres := ih s pk okky pay tx
      (fun x hx => h1 x (List.mem_cons_of_mem e hx))
      (fun x hx => h2 x (List.mem_cons_of_mem e hx))
      (fun x hx => h3 x (List.mem_cons_of_mem e hx))
      (fun x hx => h4 x (List.mem_cons_of_mem e hx))
      (fun x hx => h5 x (List.mem_cons_of_mem e hx))
      (fun x hx => h6 x (List.mem_cons_of_mem e hx))
      (fun x hx => h7 x (List.mem_cons_of_mem e hx))
    by_cases hst : fextStatus c (tx e) = "ok"
    · have hpe := processEntry2_skip c s (.obj e) (pk e) (okky e)
        (h1 e hmem) (h2 e hmem) (h6 e hmem hst)
      simp only [List.map_cons, stage2Loop, hpe]
      refine ⟨ihres.1, ?_, ?_⟩
      · simp only [List.map_cons, if_pos hst]
        rw [← ihres.2.1]
        rfl
      · have hfc : List.filter (fun x => decide ¬ fextStatus c (tx x) = "ok") (e :: rest)
            = List.filter (fun x => decide ¬ fextStatus c (tx x) = "ok") rest := by
          rw [List.filter_cons]
          simp [hst]
        rw [hfc, ← ihres.2.2]
        omega
    · obtain ⟨msg, hferr⟩ : ∃ msg,
          c.fext (String.intercalate "\n\n" (tx e)) = .error msg := by
        rcases hf : c.fext (String.intercalate "\n\n" (tx e)) with msg | f
        · exact ⟨msg, rfl⟩
        · exact absurd (by simp [fextStatus, hf]) hst
      have hie : (tx e).isEmpty = false := by
        rcases hh : tx e with _ | _
        · exact absurd hh (h5 e hmem)
        · rfl
      have hpe : processEntry2 c false s (.obj e)
          = (s, some (entry2 c.bucket (pk e) (okky e) (fextKeyOf (pk e))
              "error"), 1) := by
        simp [processEntry2, h1 e hmem, h2 e hmem, h7 e hmem hst,
          h3 e hmem, h4 e hmem, hie, hferr]
      simp only [List.map_cons, stage2Loop, hpe]
      refine ⟨ihres.1, ?_, ?_⟩
      · simp only [List.map_cons, if_neg hst]
        rw [← ihres.2.1]
        rfl
      · have hfc : List.filter (fun x => decide ¬ fextStatus c (tx x) = "ok") (e :: rest)
            = e :: List.filter (fun x => decide ¬ fextStatus c (tx x) = "ok") rest := by
          rw [List.filter_cons]
          simp [hst]
        rw [hfc]
        simp only [List.length_cons]
        rw [← ihres.2.2]
        omega

/-- Status fields of the stage 1 entries. -/
theorem skipEntry1_statusOf (b k o : String) :
    statusOf (skipEntry1 b k o) = "skipped_exists" := rfl

/-- A stage 1 success entry carries no status field at all. -/
theorem okEntry1_statusOf (b k o : String) (n : Nat) :
    statusOf (okEntry1 b k o n) = "" ∧ lookupF (okEntry1 b k o n) "status" = none := by
  constructor <;> rfl

/-- An existing output key short-circuits a stage 1 item. -/
theorem processPdf1_skip (c : Ctx1) (p : String) (s : Store) (key : String)
    (h : storeHasKey s (stage1OutKey p key) = true) :
    processPdf1 c p s key
      = (s, some (skipEntry1 c.bucket key (stage1OutKey p key)), 0) := by
  simp [processPdf1, h]

/-- A fresh stage 1 item with a PDF blob behaves according to the OCR
transform: full success writes the output and appends a success entry,
a failing page drops the item entirely (no entry, no write). -/
theorem processPdf1_run (c : Ctx1) (p : String) (s : Store) (key : String)
    (pgs : List Nat)
    (hfresh : storeHasKey s (stage1OutKey p key) = false)
    (hblob : storeGet s key = some (.pdf pgs)) :
    (processPdf1 c p s key).2.1 = exp1 c p key pgs
    ∧ (∀ k, ¬ k = stage1OutKey p key →
        storeGet (processPdf1 c p s key).1 k = storeGet s k)
    ∧ (∀ k, storeHasKey s k = true →
        storeHasKey (processPdf1 c p s key).1 k = true)
    ∧ ((exp1 c p key pgs).isSome = true →
        storeHasKey (processPdf1 c p s key).1 (stage1OutKey p key) = true)
    ∧ ((exp1 c p key pgs).isSome = false → (processPdf1 c p s key).1 = s) := by
  rcases hres : (ocrAll c.ocr (effPages c pgs)).1 with msg | texts
  · have hexp : exp1 c p key pgs = none := by simp [exp1, hres]
    have hpp : processPdf1 c p s key = (s, none, (ocrAll c.ocr (effPages c pgs)).2) := by
      simp [processPdf1, hfresh, hblob, hres]
    rw [hpp, hexp]
    exact ⟨rfl, fun k _ => rfl, fun k hk => hk, fun h => by simp at h,
      fun _ => rfl⟩
  · have hexp : exp1 c p key pgs
        = some (okEntry1 c.bucket key (stage1OutKey p key) texts.length) := by
      simp [exp1, hres]
    have hpp : processPdf1 c p s key
        = (storePut s (stage1OutKey p key)
            (.json (ocrPayload c.bucket key c.modelId texts)),
           some (okEntry1 c.bucket key (stage1OutKey p key) texts.length),
           (ocrAll c.ocr (effPages c pgs)).2) := by
      simp [processPdf1, hfresh, hblob, hres]
    rw [hpp, hexp]
    refine ⟨rfl, ?_, ?_, ?_, ?_⟩
    · intro k hkne
      exact storeGet_put_ne s (stage1OutKey p key) k _ hkne
    · intro k hk
      exact storeHasKey_put_mono s (stage1OutKey p key) k _ hk
    · intro _
      simp [storeHasKey, storeGet_put_self]
    · intro h
      simp at h

/-- Simulation of a well-formed stage 1 run: the manifest collects one
success entry per fully OCRed key, failing keys leave no entry; only
output keys of successful documents are written. -/
theorem stage1_sim (c : Ctx1) (p : String) :
    ∀ (keys : List String) (s : Store) (pgs : String → List Nat),
      S1Inv c p s keys pgs →
      (stage1Loop c p s keys).2.1
          = keys.filterMap (fun k => exp1 c p k (pgs k))
      ∧ (∀ kk, ¬ kk ∈ keys.map (stage1OutKey p) →
          storeGet (stage1Loop c p s keys).1 kk = storeGet s kk)
      ∧ (∀ kk, storeHasKey s kk = true →
          storeHasKey (stage1Loop c p s keys).1 kk = true)
      ∧ (∀ k ∈ keys, (exp1 c p k (pgs k)).isSome = true →
          storeHasKey (stage1Loop c p s keys).1 (stage1OutKey p k) = true)
      ∧ (∀ k ∈ keys, (exp1 c p k (pgs k)).isSome = false →
          storeHasKey (stage1Loop c p s keys).1 (stage1OutKey p k) = false) := by
  intro keys
  induction keys with
  | nil =>
    intro s pgs _
    simp [stage1Loop]
  | cons key rest ih =>
    intro s pgs hinv
    have hmem : key ∈ key :: rest := List.mem_cons_self key rest
    have hrun := processPdf1_run c p s key (pgs key)
      (hinv.fresh key hmem) (hinv.blob key hmem)
    obtain ⟨hman1, hframe1, hmono1, hok1, hsame1⟩ := hrun
    have hnodup := hinv.nodup
    rw [List.map_cons, List.nodup_cons] at hnodup
    have hinv2 : S1Inv c p (processPdf1 c p s key).1 rest pgs := by
      refine ⟨?_, ?_, hnodup.2, ?_⟩
      · intro k2 h2
        rw [hframe1 k2
          (fun hh => hinv.disj key hmem k2 (List.mem_cons_of_mem key h2) hh.symm)]
        exact hinv.blob k2 (List.mem_cons_of_mem key h2)
      · intro k2 h2
        have hne : ¬ stage1OutKey p k2 = stage1OutKey p key := by
          intro hh
          exact hnodup.1 (hh ▸ List.mem_map_of_mem (stage1OutKey p) h2)
        rw [storeHasKey, hframe1 (stage1OutKey p k2) hne]
        exact hinv.fresh k2 (List.mem_cons_of_mem key h2)
      · exact fun k2 h2 k3 h3 =>
          hinv.disj k2 (List.mem_cons_of_mem key h2) k3 (List.mem_cons_of_mem key h3)
    have ihres := ih (processPdf1 c p s key).1 pgs hinv2
    obtain ⟨ihman, ihframe, ihmono, ihok, ihnok⟩ := ihres
    simp only [stage1Loop]
    refine ⟨?_, ?_, ?_, ?_, ?_⟩
    · rw [List.filterMap_cons]
      rcases hexp : exp1 c p key (pgs key) with _ | en
    
      · rw [hman1, hexp]
        simpa using ihman
      · rw [hman1, hexp]
        simpa using ihman
    · intro kk hknot
      have hk1 : ¬ kk = stage1OutKey p key := by
        intro hh
        exact hknot (hh ▸ List.mem_cons_self _ _)
      have hk2 : ¬ kk ∈ rest.map (stage1OutKey p) := by
        intro hh
        exact hknot (List.mem_cons_of_mem _ hh)
      rw [ihframe kk hk2, hframe1 kk hk1]
    · intro kk hk
      exact ihmono kk (hmono1 kk hk)
    · intro k2 h2 hsome
      rcases List.mem_cons.mp h2 with he | he
      · subst he
        exact ihmono (stage1OutKey p k2) (hok1 hsome)
      · exact ihok k2 he hsome
    · intro k2 h2 hnone
      rcases List.mem_cons.mp h2 with he | he
      · subst he
        rw [storeHasKey, ihframe (stage1OutKey p k2) hnodup.1,
          hsame1 hnone]
        exact hinv.fresh k2 hmem
      · exact ihnok k2 he hnone

/-- When every listed key already has its output, stage 1 skips
everything: one `skipped_exists` entry per key, no transform calls,
no writes. -/
theorem stage1_allskip (c : Ctx1) (p : String) :
    ∀ (keys : List String) (s : Store),
      (∀ k ∈ keys, storeHasKey s (stage1OutKey p k) = true) →
      stage1Loop c p s keys
        = (s, keys.map (fun k => skipEntry1 c.bucket k (stage1OutKey p k)), 0) := by
  intro keys
  induction keys with
  | nil => intro s _; simp [stage1Loop]
  | cons key rest ih =>
    intro s hall
    have hpe := processPdf1_skip c p s key (hall key (List.mem_cons_self key rest))
    have ihres := ih s (fun k hk => hall k (List.mem_cons_of_mem key hk))
    simp only [stage1Loop, hpe, ihres]
    simp

/-- Status fields of the stage 3 entries. -/
theorem skipEntry3_statusOf (b p f ck : String) :
    statusOf (skipEntry3 b p f ck) = "skipped_exists" := rfl

/-- Status fields of the stage 3 entries. -/
theorem okEntry3_statusOf (b p f ck fo : String) (fd : Bool) :
    statusOf (okEntry3 b p f ck fo fd) = "ok" := rfl

/-- Status fields of the stage 3 entries. -/
theorem errEntry3_statusOf (b p f ck fo : String) :
    statusOf (errEntry3 b p f ck fo) = "error" := rfl

/-- A non-eligible entry is dropped by stage 3 without any effect. -/
theorem processEntry3_notEligible (c : Ctx3) (force : Bool) (s : Store)
    (fb : Option String) (it : JVal) (h : eligible3 it = false) :
    processEntry3 c force s fb it = .ok (s, none, 0, fb) := by
  cases hcont : (["ok", "skipped_exists"] : List String).contains (statusLowerOf it) with
  | false => simp only [processEntry3]; rw [hcont]; simp
  | true =>
    cases hk : pdfKeyOf it with
    | none => simp only [processEntry3]; rw [hcont]; simp [hk]
    | some pdfKey =>
      cases hf : truthyStrGet it "fext_json_s3_key" with
      | none => simp only [processEntry3]; rw [hcont]; simp [hk, hf]
      | some fextKey =>
        rw [eligible3, hcont, hk, hf] at h
        simp at h

/-- An existing clean key short-circuits an eligible stage 3 item. -/
theorem processEntry3_skip (c : Ctx3) (s : Store) (fb : Option String)
    (it : JVal) (pdfKey fextKey : String)
    (hcont : (["ok", "skipped_exists"] : List String).contains (statusLowerOf it) = true)
    (hk : pdfKeyOf it = some pdfKey)
    (hf : truthyStrGet it "fext_json_s3_key" = some fextKey)
    (hhas : storeHasKey s (cleanKeyOf pdfKey) = true) :
    processEntry3 c false s fb it
      = .ok (s, some (skipEntry3 c.bucket pdfKey fextKey (cleanKeyOf pdfKey)),
          0, fb) := by
  simp only [processEntry3]; rw [hcont]; simp [hk, hf, hhas]

/-- An eligible stage 3 item with a fresh clean key and a stored
features object is cleaned and uploaded, and binds `folder_name`. -/
theorem processEntry3_okrun (c : Ctx3) (s : Store) (fb : Option String)
    (it : JVal) (pdfKey fextKey : String) (fields : List (String × JVal))
    (hcont : (["ok", "skipped_exists"] : List String).contains (statusLowerOf it) = true)
    (hk : pdfKeyOf it = some pdfKey)
    (hf : truthyStrGet it "fext_json_s3_key" = some fextKey)
    (hfresh : storeHasKey s (cleanKeyOf pdfKey) = false)
    (hblob : storeGet s fextKey = some (.json (.obj fields))) :
    processEntry3 c false s fb it
      = .ok (storePut s (cleanKeyOf pdfKey)
            (.json (.obj (cleanedPayload3 c pdfKey fields))),
          some (okEntry3 c.bucket pdfKey fextKey (cleanKeyOf pdfKey)
            (parentName pdfKey) (cleanedFeatures3 c pdfKey fields).2),
          1, some (parentName pdfKey)) := by
  simp only [processEntry3]; rw [hcont]; simp [hk, hf, hfresh, hblob]

/-- Every stage 3 item either is dropped as non-eligible, or produces
exactly one entry with status `ok`, `skipped_exists` or `error`, or
aborts the stage (the `NameError` path). -/
theorem processEntry3_cases (c : Ctx3) (force : Bool) (s : Store)
    (fb : Option String) (it : JVal) :
    (eligible3 it = false ∧ processEntry3 c force s fb it = .ok (s, none, 0, fb))
    ∨ (eligible3 it = true ∧
        ((∃ err, processEntry3 c force s fb it = .error err)
         ∨ ∃ s2 en n fb2,
             processEntry3 c force s fb it = .ok (s2, some en, n, fb2)
             ∧ statusOf en ∈ (["ok", "skipped_exists", "error"] : List String))) := by
  cases hcont : (["ok", "skipped_exists"] : List String).contains (statusLowerOf it) with
  | false =>
    left
    exact ⟨by simp only [eligible3]; rw [hcont]; simp, by simp only [processEntry3]; rw [hcont]; simp⟩
  | true =>
    cases hk : pdfKeyOf it with
    | none =>
      left
      exact ⟨by simp only [eligible3]; rw [hcont]; simp [hk], by simp only [processEntry3]; rw [hcont]; simp [hk]⟩
    | some pdfKey =>
      cases hf : truthyStrGet it "fext_json_s3_key" with
      | none =>
        left
        exact ⟨by simp only [eligible3]; rw [hcont]; simp [hk, hf],
          by simp only [processEntry3]; rw [hcont]; simp [hk, hf]⟩
      | some fextKey =>
        right
        refine ⟨by simp only [eligible3]; rw [hcont]; simp [hk, hf], ?_⟩
        by_cases hskip : (!force && storeHasKey s (cleanKeyOf pdfKey)) = true
        · right
          refine ⟨s, skipEntry3 c.bucket pdfKey fextKey (cleanKeyOf pdfKey),
            0, fb, ?_, by simp [skipEntry3_statusOf]⟩
          simp only [processEntry3]; rw [hcont]; simp [hk, hf, hskip]
        · rcases hblob : storeGet s fextKey with _ | b
          · rcases fb with _ | fn
            · left
              exact ⟨.nameError "folder_name",
                by simp only [processEntry3]; rw [hcont]; simp [hk, hf, hskip, hblob]⟩
            · right
              refine ⟨s, errEntry3 c.bucket pdfKey fextKey (cleanKeyOf pdfKey) fn,
                1, some fn, ?_, by simp [errEntry3_statusOf]⟩
              simp only [processEntry3]; rw [hcont]; simp [hk, hf, hskip, hblob]
          · rcases b with pgs | bv | bs
            · rcases fb with _ | fn
              · left
                exact ⟨.nameError "folder_name",
                  by simp only [processEntry3]; rw [hcont]; simp [hk, hf, hskip, hblob]⟩
              · right
                refine ⟨s, errEntry3 c.bucket pdfKey fextKey (cleanKeyOf pdfKey) fn,
                  1, some fn, ?_, by simp [errEntry3_statusOf]⟩
                simp only [processEntry3]; rw [hcont]; simp [hk, hf, hskip, hblob]
            · rcases bv with _ | bb | bn | bstr | xs | flds
              · rcases fb with _ | fn
                · exact Or.inl ⟨.nameError "folder_name",
                    by simp only [processEntry3]; rw [hcont]; simp [hk, hf, hskip, hblob]⟩
                · refine Or.inr ⟨s, errEntry3 c.bucket pdfKey fextKey (cleanKeyOf pdfKey) fn,
                    1, some fn, by simp only [processEntry3]; rw [hcont]; simp [hk, hf, hskip, hblob],
                    by simp [errEntry3_statusOf]⟩
              · rcases fb with _ | fn
                · exact Or.inl ⟨.nameError "folder_name",
                    by simp only [processEntry3]; rw [hcont]; simp [hk, hf, hskip, hblob]⟩
                · refine Or.inr ⟨s, errEntry3 c.bucket pdfKey fextKey (cleanKeyOf pdfKey) fn,
                    1, some fn, by simp only [processEntry3]; rw [hcont]; simp [hk, hf, hskip, hblob],
                    by simp [errEntry3_statusOf]⟩
              · rcases fb with _ | fn
                · exact Or.inl ⟨.nameError "folder_name",
                    by simp only [processEntry3]; rw [hcont]; simp [hk, hf, hskip, hblob]⟩
                · refine Or.inr ⟨s, errEntry3 c.bucket pdfKey fextKey (cleanKeyOf pdfKey) fn,
                    1, some fn, by simp only [processEntry3]; rw [hcont]; simp [hk, hf, hskip, hblob],
                    by simp [errEntry3_statusOf]⟩
              · rcases fb with _ | fn
                · exact Or.inl ⟨.nameError "folder_name",
                    by simp only [processEntry3]; rw [hcont]; simp [hk, hf, hskip, hblob]⟩
                · refine Or.inr ⟨s, errEntry3 c.bucket pdfKey fextKey (cleanKeyOf pdfKey) fn,
                    1, some fn, by simp only [processEntry3]; rw [hcont]; simp [hk, hf, hskip, hblob],
                    by simp [errEntry3_statusOf]⟩
              · rcases fb with _ | fn
                · exact Or.inl ⟨.nameError "folder_name",
                    by simp only [processEntry3]; rw [hcont]; simp [hk, hf, hskip, hblob]⟩
                · refine Or.inr ⟨s, errEntry3 c.bucket pdfKey fextKey (cleanKeyOf pdfKey) fn,
                    1, some fn, by simp only [processEntry3]; rw [hcont]; simp [hk, hf, hskip, hblob],
                    by simp [errEntry3_statusOf]⟩
              · refine Or.inr ⟨storePut s (cleanKeyOf pdfKey)
                    (.json (.obj (cleanedPayload3 c pdfKey flds))),
                  okEntry3 c.bucket pdfKey fextKey (cleanKeyOf pdfKey)
                    (parentName pdfKey) (cleanedFeatures3 c pdfKey flds).2,
                  1, some (parentName pdfKey),
                  by simp only [processEntry3]; rw [hcont]; simp [hk, hf, hskip, hblob],
                  by simp [okEntry3_statusOf]⟩
            · rcases fb with _ | fn
              · exact Or.inl ⟨.nameError "folder_name",
                  by simp only [processEntry3]; rw [hcont]; simp [hk, hf, hskip, hblob]⟩
              · refine Or.inr ⟨s, errEntry3 c.bucket pdfKey fextKey (cleanKeyOf pdfKey) fn,
                  1, some fn, by simp only [processEntry3]; rw [hcont]; simp [hk, hf, hskip, hblob],
                  by simp [errEntry3_statusOf]⟩

/-- Decomposition of stage 3 eligibility. -/
theorem eligible3_parts (it : JVal) (h : eligible3 it = true) :
    (["ok", "skipped_exists"] : List String).contains (statusLowerOf it) = true
    ∧ (pdfKeyOf it).isSome = true
    ∧ (truthyStrGet it "fext_json_s3_key").isSome = true := by
  rw [eligible3] at h
  simp only [Bool.and_eq_true] at h
  exact ⟨h.1.1, h.1.2, h.2⟩

/-- Stage 3 loop shape: when the loop returns (no `NameError` abort),
the manifest has exactly one entry per eligible prior entry, each with
status `ok`, `skipped_exists` or `error`. -/
theorem stage3_loop_shape (c : Ctx3) (force : Bool) :
    ∀ (items : List JVal) (s : Store) (fb : Option String)
      (r : Store × List Entry × Nat × Option String),
      stage3Loop c force s fb items = .ok r →
      r.2.1.length = (items.filter eligible3).length
      ∧ ∀ en ∈ r.2.1,
          statusOf en ∈ (["ok", "skipped_exists", "error"] : List String) := by
  intro items
  induction items with
  | nil =>
    intro s fb r hloop
    simp only [stage3Loop] at hloop
    rw [Except.ok.injEq] at hloop
    subst hloop
    simp
  | cons it rest ih =>
    intro s fb r hloop
    rcases processEntry3_cases c force s fb it with ⟨hel, heq⟩ | ⟨hel, hcase⟩
    · simp only [stage3Loop, heq] at hloop
      rcases hrest : stage3Loop c force s fb rest with e2 | r2
      · rw [hrest] at hloop
        simp at hloop
      · rw [hrest] at hloop
        simp only [Except.ok.injEq] at hloop
        subst hloop
        have ihres := ih s fb r2 hrest
        constructor
        · simp only [List.filter_cons, hel]
          simpa using ihres.1
        · simpa using ihres.2
    · rcases hcase with ⟨err, heq⟩ | ⟨s2, en, n, fb2, heq, hst⟩
      · simp only [stage3Loop, heq] at hloop
        simp at hloop
      · simp only [stage3Loop, heq] at hloop
        rcases hrest : stage3Loop c force s2 fb2 rest with e2 | r2
        · rw [hrest] at hloop
          simp at hloop
        · rw [hrest] at hloop
          simp only [Except.ok.injEq] at hloop
          subst hloop
          have ihres := ih s2 fb2 r2 hrest
          constructor
          · simp only [List.filter_cons, hel]
            simpa using ihres.1
          · intro en2 hen2
            simp only [Option.toList_some, List.singleton_append,
              List.mem_cons] at hen2
            rcases hen2 with he | he
            · subst he
              exact hst
            · exact ihres.2 en2 he

/-- Simulation of a well-formed stage 3 run (`force = false`): every
eligible entry is cleaned and uploaded (one processing step each, no
abort), non-eligible entries are dropped, and the store gains exactly
the eligible clean keys. -/
theorem stage3_sim (c : Ctx3) :
    ∀ (items : List Entry) (s : Store) (fb : Option String)
      (pk fkk : Entry → String) (flds : Entry → List (String × JVal)),
      S3Inv c s items pk fkk flds →
      ∃ r, stage3Loop c false s fb (items.map .obj) = .ok r
      ∧ r.2.1 = (items.filter (fun e => eligible3 (.obj e))).map
          (fun e => okEntry3 c.bucket (pk e) (fkk e) (cleanKeyOf (pk e))
            (parentName (pk e)) (cleanedFeatures3 c (pk e) (flds e)).2)
      ∧ (∀ kk, ¬ kk ∈ (items.filter (fun e => eligible3 (.obj e))).map
            (fun e => cleanKeyOf (pk e)) →
          storeGet r.1 kk = storeGet s kk)
      ∧ (∀ kk, storeHasKey s kk = true → storeHasKey r.1 kk = true)
      ∧ (∀ e ∈ items, eligible3 (.obj e) = true →
          storeHasKey r.1 (cleanKeyOf (pk e)) = true) := by
  intro items
  induction items with
  | nil =>
    intro s fb pk fkk flds _
    exact ⟨(s, [], 0, fb), by simp [stage3Loop], by simp, fun kk _ => rfl,
      fun kk h => h, by simp⟩
  | cons e rest ih =>
    intro s fb pk fkk flds hinv
    have hmem : e ∈ e :: rest := List.mem_cons_self e rest
    by_cases hel : eligible3 (.obj e) = true
    · obtain ⟨hcont, _, _⟩ := eligible3_parts (.obj e) hel
      have hrun := processEntry3_okrun c s fb (.obj e) (pk e) (fkk e) (flds e)
        hcont (hinv.keys1 e hmem hel) (hinv.keys2 e hmem hel)
        (hinv.fresh e hmem hel) (hinv.blob e hmem hel)
      have hnodup := hinv.nodup
      rw [List.filter_cons_of_pos (by simpa using hel), List.map_cons,
        List.nodup_cons] at hnodup
      have hinv2 : S3Inv c (storePut s (cleanKeyOf (pk e))
          (.json (.obj (cleanedPayload3 c (pk e) (flds e))))) rest pk fkk flds := by
        refine ⟨?_, ?_, ?_, ?_, hnodup.2, ?_⟩
        · exact fun e2 h2 h2el => hinv.keys1 e2 (List.mem_cons_of_mem e h2) h2el
        · exact fun e2 h2 h2el => hinv.keys2 e2 (List.mem_cons_of_mem e h2) h2el
        · intro e2 h2 h2el
          rw [storeGet_put_ne _ _ _ _
            (fun hh => hinv.disj e hmem hel e2 (List.mem_cons_of_mem e h2) h2el hh.symm)]
          exact hinv.blob e2 (List.mem_cons_of_mem e h2) h2el
        · intro e2 h2 h2el
          have hne : ¬ cleanKeyOf (pk e2) = cleanKeyOf (pk e) := by
            intro hh
            refine hnodup.1 ?_
            rw [← hh]
            exact List.mem_map_of_mem _ (List.mem_filter.mpr
              ⟨h2, by simpa using h2el⟩)
          rw [storeHasKey, storeGet_put_ne _ _ _ _ hne]
          exact hinv.fresh e2 (List.mem_cons_of_mem e h2) h2el
        · exact fun e2 h2 h2el e3 h3 h3el =>
            hinv.disj e2 (List.mem_cons_of_mem e h2) h2el e3
              (List.mem_cons_of_mem e h3) h3el
      obtain ⟨r2, hr2, hman2, hframe2, hmono2, hok2⟩ :=
        ih (storePut s (cleanKeyOf (pk e))
          (.json (.obj (cleanedPayload3 c (pk e) (flds e))))) (some (parentName (pk e)))
          pk fkk flds hinv2
      refine ⟨(r2.1, okEntry3 c.bucket (pk e) (fkk e) (cleanKeyOf (pk e))
          (parentName (pk e)) (cleanedFeatures3 c (pk e) (flds e)).2 :: r2.2.1,
          1 + r2.2.2.1, r2.2.2.2), ?_, ?_, ?_, ?_, ?_⟩
      · simp only [List.map_cons, stage3Loop, hrun, hr2]
        simp
      · rw [List.filter_cons_of_pos (by simpa using hel), List.map_cons]
        simpa using hman2
      · intro kk hknot
        rw [List.filter_cons_of_pos (by simpa using hel), List.map_cons] at hknot
        have hk1 : ¬ kk = cleanKeyOf (pk e) := by
          intro hh
          exact hknot (hh ▸ List.mem_cons_self _ _)
        have hk2 : ¬ kk ∈ (rest.filter (fun e2 => eligible3 (.obj e2))).map
            (fun e2 => cleanKeyOf (pk e2)) := by
          intro hh
          exact hknot (List.mem_cons_of_mem _ hh)
        show storeGet r2.1 kk = storeGet s kk
        rw [hframe2 kk hk2, storeGet_put_ne _ _ _ _ hk1]
      · intro kk hkk
        exact hmono2 kk (storeHasKey_put_mono _ _ _ _ hkk)
      · intro e2 h2 h2el
        rcases List.mem_cons.mp h2 with he | he
        · subst he
          refine hmono2 (cleanKeyOf (pk e2)) ?_
          simp [storeHasKey, storeGet_put_self]
        · exact hok2 e2 he h2el
    · have hel2 : eligible3 (.obj e) = false := by
        cases hval : eligible3 (.obj e)
        · rfl
        · exact absurd hval hel
      have hrun := processEntry3_notEligible c false s fb (.obj e) hel2
      obtain ⟨r2, hr2, hman2, hframe2, hmono2, hok2⟩ := ih s fb pk fkk flds
        (by
          refine ⟨?_, ?_, ?_, ?_, ?_, ?_⟩
          · exact fun e2 h2 h2el => hinv.keys1 e2 (List.mem_cons_of_mem e h2) h2el
          · exact fun e2 h2 h2el => hinv.keys2 e2 (List.mem_cons_of_mem e h2) h2el
          · exact fun e2 h2 h2el => hinv.blob e2 (List.mem_cons_of_mem e h2) h2el
          · exact fun e2 h2 h2el => hinv.fresh e2 (List.mem_cons_of_mem e h2) h2el
          · have := hinv.nodup
            rwa [List.filter_cons_of_neg (by simpa using hel2)] at this
          · exact fun e2 h2 h2el e3 h3 h3el =>
              hinv.disj e2 (List.mem_cons_of_mem e h2) h2el e3
                (List.mem_cons_of_mem e h3) h3el)
      refine ⟨(r2.1, r2.2.1, 0 + r2.2.2.1, r2.2.2.2), ?_, ?_, ?_, ?_, ?_⟩
      · simp only [List.map_cons, stage3Loop, hrun, hr2]
        simp
      · rw [List.filter_cons_of_neg (by simpa using hel2)]
        simpa using hman2
      · intro kk hknot
        rw [List.filter_cons_of_neg (by simpa using hel2)] at hknot
        exact hframe2 kk hknot
      · exact hmono2
      · intro e2 h2 h2el
        rcases List.mem_cons.mp h2 with he | he
        · subst he
          exact absurd h2el hel
        · exact hok2 e2 he h2el

/-- When every eligible clean key already exists, stage 3 skips every
eligible entry, processes nothing and writes nothing. -/
theorem stage3_allskip (c : Ctx3) :
    ∀ (items : List Entry) (s : Store) (fb : Option String)
      (pk fkk : Entry → String),
      (∀ e ∈ items, eligible3 (.obj e) = true →
        pdfKeyOf (.obj e) = some (pk e)) →
      (∀ e ∈ items, eligible3 (.obj e) = true →
        truthyStrGet (.obj e) "fext_json_s3_key" = some (fkk e)) →
      (∀ e ∈ items, eligible3 (.obj e) = true →
        storeHasKey s (cleanKeyOf (pk e)) = true) →
      stage3Loop c false s fb (items.map .obj)
        = .ok (s, (items.filter (fun e => eligible3 (.obj e))).map
            (fun e => skipEntry3 c.bucket (pk e) (fkk e) (cleanKeyOf (pk e))),
            0, fb) := by
  intro items
  induction items with
  | nil =>
    intro s fb pk fkk _ _ _
    simp [stage3Loop]
  | cons e rest ih =>
    intro s fb pk fkk h1 h2 h3
    have hmem : e ∈ e :: rest := List.mem_cons_self e rest
    have ihres := ih s fb pk fkk
      (fun x hx hxel => h1 x (List.mem_cons_of_mem e hx) hxel)
      (fun x hx hxel => h2 x (List.mem_cons_of_mem e hx) hxel)
      (fun x hx hxel => h3 x (List.mem_cons_of_mem e hx) hxel)
    by_cases hel : eligible3 (.obj e) = true
    · obtain ⟨hcont, _, _⟩ := eligible3_parts (.obj e) hel
      have hpe := processEntry3_skip c s fb (.obj e) (pk e) (fkk e)
        hcont (h1 e hmem hel) (h2 e hmem hel) (h3 e hmem hel)
      simp only [List.map_cons, stage3Loop, hpe, ihres]
      rw [List.filter_cons_of_pos (by simpa using hel), List.map_cons]
      simp
    · have hel2 : eligible3 (.obj e) = false := by
        cases hval : eligible3 (.obj e)
        · rfl
        · exact absurd hval hel
      have hpe := processEntry3_notEligible c false s fb (.obj e) hel2
      simp only [List.map_cons, stage3Loop, hpe, ihres]
      rw [List.filter_cons_of_neg (by simpa using hel2)]
      simp

/-- Key presence is membership in the key list. -/
theorem storeHasKey_iff_mem (s : Store) (k : String) :
    storeHasKey s k = true ↔ k ∈ storeKeys s := by
  induction s with
  | nil => simp [storeHasKey, storeGet, storeKeys]
  | cons p rest ih =>
    by_cases hp : p.1 = k
    · simp [storeHasKey, storeGet, storeKeys, List.find?_cons, hp]
    · have h1 : (p.1 == k) = false := by simpa using hp
      have h2 : ¬ k = p.1 := fun hh => hp hh.symm
      simp only [storeKeys, List.map_cons, List.mem_cons]
      rw [show storeHasKey (p :: rest) k = storeHasKey rest k by
        simp [storeHasKey, storeGet, List.find?_cons, h1]]
      rw [ih]
      simp [storeKeys, h2]

/-- A write introduces at most its own key. -/
theorem storeKeys_put_sub (s : Store) (k k2 : String) (b : Blob)
    (h : k2 ∈ storeKeys (storePut s k b)) :
    k2 = k ∨ k2 ∈ storeKeys s := by
  simp only [storePut, storeKeys, List.map_cons, List.mem_cons] at h
  rcases h with h | h
  · exact Or.inl h
  · right
    obtain ⟨q, hq1, hq2⟩ := List.mem_map.mp h
    exact List.mem_map.mpr ⟨q, (List.mem_filter.mp hq1).1, hq2⟩

/-- A write preserves every existing key. -/
theorem storeKeys_put_mem (s : Store) (k k2 : String) (b : Blob)
    (h : k2 ∈ storeKeys s) : k2 ∈ storeKeys (storePut s k b) := by
  rw [← storeHasKey_iff_mem] at h ⊢
  exact storeHasKey_put_mono s k k2 b h

/-- Outcome of the stage 1 per-item store effect. -/
theorem processPdf1_store_cases (c : Ctx1) (p : String) (s : Store)
    (key : String) :
    (processPdf1 c p s key).1 = s
    ∨ ∃ b, (processPdf1 c p s key).1 = storePut s (stage1OutKey p key) b := by
  by_cases h : storeHasKey s (stage1OutKey p key) = true
  · left
    simp [processPdf1, h]
  · have h2 : storeHasKey s (stage1OutKey p key) = false := by
      cases hv : storeHasKey s (stage1OutKey p key)
      · rfl
      · exact absurd hv h
    rcases hg : storeGet s key with _ | b
    · left; simp [processPdf1, h2, hg]
    · rcases b with pgs | v | t
      · rcases hres : (ocrAll c.ocr (effPages c pgs)).1 with m | texts
        · left; simp [processPdf1, h2, hg, hres]
        · right
          exact ⟨.json (ocrPayload c.bucket key c.modelId texts),
            by simp [processPdf1, h2, hg, hres]⟩
      · left; simp [processPdf1, h2, hg]
      · left; simp [processPdf1, h2, hg]

/-- The stage 1 loop only adds output keys. -/
theorem stage1Loop_keys_sub (c : Ctx1) (p : String) :
    ∀ (keys : List String) (s : Store) (k2 : String),
      k2 ∈ storeKeys (stage1Loop c p s keys).1 →
      k2 ∈ storeKeys s ∨ k2 ∈ keys.map (stage1OutKey p) := by
  intro keys
  induction keys with
  | nil =>
    intro s k2 h
    exact Or.inl h
  | cons key rest ih =>
    intro s k2 h
    simp only [stage1Loop] at h
    rcases ih (processPdf1 c p s key).1 k2 h with h2 | h2
    · rcases processPdf1_store_cases c p s key with hc | ⟨b, hc⟩
      · rw [hc] at h2
        exact Or.inl h2
      · rw [hc] at h2
        rcases storeKeys_put_sub s (stage1OutKey p key) k2 b h2 with h3 | h3
        · right
          rw [List.map_cons, h3]
          exact List.mem_cons_self _ _
        · exact Or.inl h3
    · right
      rw [List.map_cons]
      exact List.mem_cons_of_mem _ h2

/-- Membership in the PDF listing. -/
theorem sortedInsert_perm (x : String) :
    ∀ l, (sortedInsert x l).Perm (x :: l) := by
  intro l
  induction l with
  | nil => exact List.Perm.refl _
  | cons y ys ih =>
    rw [sortedInsert]
    split
    · exact List.Perm.refl _
    · exact (List.Perm.cons y ih).trans (List.Perm.swap x y ys)

theorem sortStrings_perm : ∀ l, (sortStrings l).Perm l := by
  intro l
  induction l with
  | nil => exact List.Perm.refl _
  | cons x xs ih =>
    exact (sortedInsert_perm x (sortStrings xs)).trans (List.Perm.cons x ih)

theorem mem_listPdfKeys (s : Store) (p k : String) :
    k ∈ listPdfKeys s p ↔ k ∈ storeKeys s ∧ pdfKeyTest p k = true := by
  rw [listPdfKeys]
  rw [(sortStrings_perm ((storeKeys s).filter (pdfKeyTest p))).mem_iff]
  exact List.mem_filter

/-- `filterMap` over a list where the function always hits. -/
theorem length_filterMap_all_some {α β : Type} (g : α → Option β) :
    ∀ (l : List α), (∀ a ∈ l, (g a).isSome = true) →
      (l.filterMap g).length = l.length := by
  intro l
  induction l with
  | nil => intro _; rfl
  | cons a rest ih =>
    intro h
    rcases hg : g a with _ | b
    · have := h a (List.mem_cons_self a rest)
      rw [hg] at this
      simp at this
    · rw [List.filterMap_cons, hg]
      simp only [List.length_cons]
      rw [ih (fun x hx => h x (List.mem_cons_of_mem a hx))]

/-- A stage 1 success entry never carries an `error` status. -/
theorem exp1_some_status (c : Ctx1) (p k : String) (pgs : List Nat)
    (en : Entry) (h : exp1 c p k pgs = some en) : statusOf en = "" := by
  rw [exp1] at h
  rcases hres : (ocrAll c.ocr (effPages c pgs)).1 with m | texts
  · rw [hres] at h
    simp at h
  · rw [hres] at h
    simp only [Option.some_inj] at h
    subst h
    rfl

/-- The transform status is binary. -/
theorem fextStatus_cases (c : Ctx2) (t : List String) :
    fextStatus c t = "ok" ∨ fextStatus c t = "error" := by
  rw [fextStatus]
  rcases c.fext (String.intercalate "\n\n" t) with m | f
  · exact Or.inr rfl
  · exact Or.inl rfl

/-- Counting a status over a mapped manifest. -/
theorem countStatus_map {α : Type} (f : α → Entry) (l : List α) (st : String) :
    countStatus (l.map f) st
      = (l.filter (fun a => statusOf (f a) == st)).length := by
  rw [countStatus, List.countP_map, List.countP_eq_length_filter]
  rfl

/-- Evaluation of a stage 1 run over a nonempty listing. -/
theorem runStage1_eval (c : Ctx1) (s : Store) (keys : List String)
    (hkeys : listPdfKeys s (normPfx c.pfx) = keys) (hne : ¬ keys = []) :
    (runStage1 c s).manifest = (stage1Loop c (normPfx c.pfx) s keys).2.1
    ∧ (runStage1 c s).calls = (stage1Loop c (normPfx c.pfx) s keys).2.2
    ∧ (runStage1 c s).warned = false
    ∧ (runStage1 c s).manifestWritten = true
    ∧ (runStage1 c s).store
        = (let s2 := storePut (stage1Loop c (normPfx c.pfx) s keys).1
            (normPfx c.pfx ++ "manifest.json")
            (manifestBlob (stage1Loop c (normPfx c.pfx) s keys).2.1)
           if c.uploadLog then
             storePut s2 (normPfx c.pfx ++ "stage_01_ocr.log") (.blobText "")
           else s2) := by
  have hie : keys.isEmpty = false := by
    cases keys
    · exact absurd rfl hne
    · rfl
  simp only [runStage1, hkeys, hie]
  exact ⟨rfl, rfl, rfl, rfl, rfl⟩

/-- A stage 1 run over an empty listing warns and changes nothing. -/
theorem runStage1_empty (c : Ctx1) (s : Store)
    (h : listPdfKeys s (normPfx c.pfx) = []) :
    runStage1 c s = ⟨s, [], 0, true, false⟩ := by
  simp [runStage1, h]

/-- Evaluation of a stage 2 run over a nonempty manifest. -/
theorem runStage2_eval (c : Ctx2) (force : Bool) (s : Store) (items : List JVal)
    (hman : storeGet s (normPfx c.pfx ++ "manifest.json")
      = some (.json (.arr items)))
    (hne : ¬ items = []) :
    runStage2 c force s = .ok
      ⟨(let s2 := storePut (stage2Loop c force s items).1
          (normPfx c.pfx ++ "manifest_fext.json")
          (manifestBlob (stage2Loop c force s items).2.1)
        if c.uploadLog then
          storePut s2 (normPfx c.pfx ++ "stage_02_fext.log") (.blobText "")
        else s2),
       (stage2Loop c force s items).2.1,
       (stage2Loop c force s items).2.2, false, true⟩ := by
  have hie : items.isEmpty = false := by
    cases items
    · exact absurd rfl hne
    · rfl
  simp [runStage2, loadManifest, hman, hie]

/-- A stage 2 run without a readable stage 1 manifest aborts. -/
theorem runStage2_missing (c : Ctx2) (force : Bool) (s : Store)
    (h : storeGet s (normPfx c.pfx ++ "manifest.json") = none) :
    runStage2 c force s = .error (.clientError "NoSuchKey") := by
  simp [runStage2, loadManifest, h]

/-- Evaluation of a stage 3 run over a nonempty manifest whose loop
returns. -/
theorem runStage3_eval (c : Ctx3) (force : Bool) (s : Store) (items : List JVal)
    (r : Store × List Entry × Nat × Option String)
    (hman : storeGet s (normPfx c.pfx ++ "manifest_fext.json")
      = some (.json (.arr items)))
    (hne : ¬ items = [])
    (hloop : stage3Loop c force s none items = .ok r) :
    runStage3 c force s = .ok
      ⟨(let s2 := storePut r.1 (normPfx c.pfx ++ "manifest_clean.json")
          (manifestBlob r.2.1)
        if c.uploadLog then
          storePut s2 (normPfx c.pfx ++ "stage_03_clean.log") (.blobText "")
        else s2),
       r.2.1, r.2.2.1, false, true⟩ := by
  have hie : items.isEmpty = false := by
    cases items
    · exact absurd rfl hne
    · rfl
  simp [runStage3, loadManifest, hman, hie, hloop]


/-- Updating one key in place does not touch lookups of other keys. -/
theorem lookupF_mapSet_ne (k k2 : String) (v : JVal) (h : ¬ k2 = k) :
    ∀ (fields : List (String × JVal)),
      lookupF (fields.map (fun p => if p.1 == k then (k, v) else p)) k2
        = lookupF fields k2 := by
  have hkk : (k == k2) = false := by simpa using fun hh => h hh.symm
  intro fields
  induction fields with
  | nil => rfl
  | cons q rest ih =>
    by_cases hq : q.1 = k
    · have hq2 : (q.1 == k2) = false := by
        simp only [hq]
        exact hkk
      simp only [List.map_cons, lookupF, List.find?_cons,
        if_pos (show (q.1 == k) = true from by simpa using hq)]
      rw [show ((k, v).1 == k2) = false from hkk, hq2]
      exact ih
    · simp only [List.map_cons, lookupF, List.find?_cons,
        if_neg (show ¬ (q.1 == k) = true from by simpa using hq)]
      by_cases hq2 : q.1 = k2
      · rw [show (q.1 == k2) = true from by simpa using hq2]
      · rw [show (q.1 == k2) = false from by simpa using hq2]
        exact ih

/-- Updating a present key in place makes it hold the new value. -/
theorem lookupF_mapSet_self (k : String) (v : JVal) :
    ∀ (fields : List (String × JVal)),
      fields.any (fun p => p.1 == k) = true →
      lookupF (fields.map (fun p => if p.1 == k then (k, v) else p)) k
        = some v := by
  intro fields
  induction fields with
  | nil => intro h; simp at h
  | cons q rest ih =>
    intro hany
    by_cases hq : q.1 = k
    · simp only [List.map_cons, lookupF, List.find?_cons,
        if_pos (show (q.1 == k) = true from by simpa using hq)]
      simp
    · simp only [List.map_cons, lookupF, List.find?_cons,
        if_neg (show ¬ (q.1 == k) = true from by simpa using hq)]
      rw [show (q.1 == k) = false from by simpa using hq]
      refine ih ?_
      rcases List.any_eq_true.mp hany with ⟨q2, hq2m, hv⟩
      rcases List.mem_cons.mp hq2m with he | he
      · subst he
        exact absurd (by simpa using hv) hq
      · exact List.any_eq_true.mpr ⟨q2, he, hv⟩

/-- Appending a binding does not touch lookups of other keys. -/
theorem lookupF_append_ne (k k2 : String) (v : JVal) (h : ¬ k2 = k) :
    ∀ (fields : List (String × JVal)),
      lookupF (fields ++ [(k, v)]) k2 = lookupF fields k2 := by
  have hkk : (k == k2) = false := by simpa using fun hh => h hh.symm
  intro fields
  induction fields with
  | nil =>
    simp only [List.nil_append, lookupF, List.find?_cons]
    rw [show ((k, v).1 == k2) = false from hkk]
  | cons q rest ih =>
    simp only [List.cons_append, lookupF, List.find?_cons]
    by_cases hq2 : q.1 = k2
    · rw [show (q.1 == k2) = true from by simpa using hq2]
    · rw [show (q.1 == k2) = false from by simpa using hq2]
      exact ih

/-- Appending a missing key makes it hold the new value. -/
theorem lookupF_append_self (k : String) (v : JVal) :
    ∀ (fields : List (String × JVal)),
      ¬ fields.any (fun p => p.1 == k) = true →
      lookupF (fields ++ [(k, v)]) k = some v := by
  intro fields
  induction fields with
  | nil => intro _; simp [lookupF, List.find?_cons]
  | cons q rest ih =>
    intro hany
    have hq : (q.1 == k) = false := by
      rcases hv : (q.1 == k) with _ | _
      · rfl
      · exact absurd (List.any_eq_true.mpr ⟨q, List.mem_cons_self q rest, hv⟩)
          hany
    simp only [List.cons_append, lookupF, List.find?_cons, hq]
    refine ih ?_
    intro hh
    rcases List.any_eq_true.mp hh with ⟨q2, hq2m, hv⟩
    exact hany (List.any_eq_true.mpr ⟨q2, List.mem_cons_of_mem q hq2m, hv⟩)

/-- Frame property of the dict copy-and-set operation: every key other
than the one set is unchanged. -/
theorem lookupF_setKey_ne (fields : List (String × JVal)) (k k2 : String)
    (v : JVal) (h : ¬ k2 = k) :
    lookupF (setKey fields k v) k2 = lookupF fields k2 := by
  rw [setKey]
  by_cases hany : fields.any (fun p => p.1 == k) = true
  · rw [if_pos hany]
    exact lookupF_mapSet_ne k k2 v h fields
  · rw [if_neg hany]
    exact lookupF_append_ne k k2 v h fields

/-- The set key holds exactly the new value. -/
theorem lookupF_setKey_self (fields : List (String × JVal)) (k : String)
    (v : JVal) : lookupF (setKey fields k v) k = some v := by
  rw [setKey]
  by_cases hany : fields.any (fun p => p.1 == k) = true
  · rw [if_pos hany]
    exact lookupF_mapSet_self k v fields hany
  · rw [if_neg hany]
    exact lookupF_append_self k v fields hany

/-- C9: every item stage 3 processes successfully (status `ok`) writes
a cleaned JSON with the same shape as the stage 2 features payload it
was derived from: the written payload is the dict copy of the source
payload with only the top-level `features` key replaced by the cleaned
features; every other top-level field (schema_version, model_id, the
source references) is unchanged. -/
theorem c9_clean_frame (c : Ctx3) (force : Bool) (s : Store)
    (fb fb2 : Option String) (it : JVal) (s2 : Store) (en : Entry) (n : Nat)
    (hrun : processEntry3 c force s fb it = .ok (s2, some en, n, fb2))
    (hok : statusOf en = "ok") :
    ∃ pdfKey fextKey fields,
      pdfKeyOf it = some pdfKey
      ∧ truthyStrGet it "fext_json_s3_key" = some fextKey
      ∧ storeGet s fextKey = some (.json (.obj fields))
      ∧ s2 = storePut s (cleanKeyOf pdfKey)
          (.json (.obj (cleanedPayload3 c pdfKey fields)))
      ∧ en = okEntry3 c.bucket pdfKey fextKey (cleanKeyOf pdfKey)
          (parentName pdfKey) (cleanedFeatures3 c pdfKey fields).2
      ∧ (∀ k, ¬ k = "features" →
          lookupF (cleanedPayload3 c pdfKey fields) k = lookupF fields k)
      ∧ lookupF (cleanedPayload3 c pdfKey fields) "features"
          = some (.obj (cleanedFeatures3 c pdfKey fields).1) := by
  cases hcont : (["ok", "skipped_exists"] : List String).contains (statusLowerOf it) with
  | false =>
    have heq : processEntry3 c force s fb it = .ok (s, none, 0, fb) := by
      simp only [processEntry3]; rw [hcont]; simp
    rw [heq] at hrun
    simp at hrun
  | true =>
    cases hk : pdfKeyOf it with
    | none =>
      have heq : processEntry3 c force s fb it = .ok (s, none, 0, fb) := by
        simp only [processEntry3]; rw [hcont]; simp [hk]
      rw [heq] at hrun
      simp at hrun
    | some pdfKey =>
      cases hf : truthyStrGet it "fext_json_s3_key" with
      | none =>
        have heq : processEntry3 c force s fb it = .ok (s, none, 0, fb) := by
          simp only [processEntry3]; rw [hcont]; simp [hk, hf]
        rw [heq] at hrun
        simp at hrun
      | some fextKey =>
        by_cases hskip : (!force && storeHasKey s (cleanKeyOf pdfKey)) = true
        · have heq : processEntry3 c force s fb it
              = .ok (s, some (skipEntry3 c.bucket pdfKey fextKey
                  (cleanKeyOf pdfKey)), 0, fb) := by
            simp only [processEntry3]; rw [hcont]; simp [hk, hf, hskip]
          rw [heq] at hrun
          simp only [Except.ok.injEq, Prod.mk.injEq] at hrun
          rw [← Option.some_inj.mp hrun.2.1] at hok
          rw [skipEntry3_statusOf] at hok
          exact absurd hok (by decide)
        · rcases hblob : storeGet s fextKey with _ | b
          · rcases fb with _ | fn
            · have heq : processEntry3 c force s none it
                  = .error (.nameError "folder_name") := by
                simp only [processEntry3]; rw [hcont]; simp [hk, hf, hskip, hblob]
              rw [heq] at hrun
              simp at hrun
            · have heq : processEntry3 c force s (some fn) it
                  = .ok (s, some (errEntry3 c.bucket pdfKey fextKey
                      (cleanKeyOf pdfKey) fn), 1, some fn) := by
                simp only [processEntry3]; rw [hcont]; simp [hk, hf, hskip, hblob]
              rw [heq] at hrun
              simp only [Except.ok.injEq, Prod.mk.injEq] at hrun
              rw [← Option.some_inj.mp hrun.2.1] at hok
              rw [errEntry3_statusOf] at hok
              exact absurd hok (by decide)
          · rcases b with pgs | v | t
            · rcases fb with _ | fn
              · have heq : processEntry3 c force s none it
                    = .error (.nameError "folder_name") := by
                  simp only [processEntry3]; rw [hcont]; simp [hk, hf, hskip, hblob]
                rw [heq] at hrun
                simp at hrun
              · have heq : processEntry3 c force s (some fn) it
                    = .ok (s, some (errEntry3 c.bucket pdfKey fextKey
                        (cleanKeyOf pdfKey) fn), 1, some fn) := by
                  simp only [processEntry3]; rw [hcont]; simp [hk, hf, hskip, hblob]
                rw [heq] at hrun
                simp only [Except.ok.injEq, Prod.mk.injEq] at hrun
                rw [← Option.some_inj.mp hrun.2.1] at hok
                rw [errEntry3_statusOf] at hok
                exact absurd hok (by decide)
            · rcases v with _ | bb | bn | bs | xs | fields
              on_goal 6 =>
                have heq : processEntry3 c force s fb it
                    = .ok (storePut s (cleanKeyOf pdfKey)
                        (.json (.obj (cleanedPayload3 c pdfKey fields))),
                      some (okEntry3 c.bucket pdfKey fextKey (cleanKeyOf pdfKey)
                        (parentName pdfKey) (cleanedFeatures3 c pdfKey fields).2),
                      1, some (parentName pdfKey)) := by
                  simp only [processEntry3]; rw [hcont]; simp [hk, hf, hskip, hblob]
                rw [heq] at hrun
                simp only [Except.ok.injEq, Prod.mk.injEq] at hrun
                refine ⟨pdfKey, fextKey, fields, rfl, rfl, hblob,
                  hrun.1.symm, (Option.some_inj.mp hrun.2.1).symm, ?_, ?_⟩
                · intro k hkne
                  exact lookupF_setKey_ne fields "features" k _ hkne
                · exact lookupF_setKey_self fields "features" _
              all_goals rcases fb with _ | fn
              all_goals first
              | (have heq : processEntry3 c force s none it
                    = .error (.nameError "folder_name") := by
                  simp only [processEntry3]; rw [hcont]; simp [hk, hf, hskip, hblob]
                 rw [heq] at hrun
                 simp at hrun)
              | (have heq : processEntry3 c force s (some fn) it
                    = .ok (s, some (errEntry3 c.bucket pdfKey fextKey
                        (cleanKeyOf pdfKey) fn), 1, some fn) := by
                  simp only [processEntry3]; rw [hcont]; simp [hk, hf, hskip, hblob]
                 rw [heq] at hrun
                 simp only [Except.ok.injEq, Prod.mk.injEq] at hrun
                 rw [← Option.some_inj.mp hrun.2.1] at hok
                 rw [errEntry3_statusOf] at hok
                 exact absurd hok (by decide))
            · rcases fb with _ | fn
              · have heq : processEntry3 c force s none it
                    = .error (.nameError "folder_name") := by
                  simp only [processEntry3]; rw [hcont]; simp [hk, hf, hskip, hblob]
                rw [heq] at hrun
                simp at hrun
              · have heq : processEntry3 c force s (some fn) it
                    = .ok (s, some (errEntry3 c.bucket pdfKey fextKey
                        (cleanKeyOf pdfKey) fn), 1, some fn) := by
                  simp only [processEntry3]; rw [hcont]; simp [hk, hf, hskip, hblob]
                rw [heq] at hrun
                simp only [Except.ok.injEq, Prod.mk.injEq] at hrun
                rw [← Option.some_inj.mp hrun.2.1] at hok
                rw [errEntry3_statusOf] at hok
                exact absurd hok (by decide)

theorem c9_clean_frame_witness :
    ∃ pdfKey fextKey fields,
      pdfKeyOf c9xItem = some pdfKey
      ∧ truthyStrGet c9xItem "fext_json_s3_key" = some fextKey
      ∧ storeGet c9xStore fextKey = some (.json (.obj fields))
      ∧ c9xRes.1 = storePut c9xStore (cleanKeyOf pdfKey)
          (.json (.obj (cleanedPayload3 c9xCtx pdfKey fields)))
      ∧ c9xRes.2.1.getD [] = okEntry3 c9xCtx.bucket pdfKey fextKey
          (cleanKeyOf pdfKey) (parentName pdfKey)
          (cleanedFeatures3 c9xCtx pdfKey fields).2
      ∧ (∀ k, ¬ k = "features" →
          lookupF (cleanedPayload3 c9xCtx pdfKey fields) k = lookupF fields k)
      ∧ lookupF (cleanedPayload3 c9xCtx pdfKey fields) "features"
          = some (.obj (cleanedFeatures3 c9xCtx pdfKey fields).1) :=
  c9_clean_frame c9xCtx false c9xStore none c9xRes.2.2.2 c9xItem c9xRes.1
    (c9xRes.2.1.getD []) c9xRes.2.2.1 (by rfl) (by rfl)

/-- C3 counterexample: a stage 1 document whose OCR fails is enumerated
as a work item but yields NO entry in the persisted manifest (it is not
dropped by any prior-stage status — stage 1 has no prior stage), and
stage 2 produces the status `no_ocr_text`, which is outside the claimed
status vocabulary. -/
theorem c3_manifest_shape_cex :
    (listPdfKeys c3xStore (normPfx c3xCtx.pfx)).length = 1
    ∧ (runStage1 c3xCtx c3xStore).manifest.length = 0
    ∧ (runStage1 c3xCtx c3xStore).manifestWritten = true
    ∧ statusOf ((processEntry2 c3yCtx false c3yStore c3yItem).2.1.getD [])
        = "no_ocr_text"
    ∧ (["ok", "skipped_exists", "no_input_data", "error"] : List String).contains
        "no_ocr_text" = false := by
  decide

/-- C3 amended: stage 1 yields at most one manifest entry per listed
document — success entries carry no status field (`statusOf` is empty),
skips carry `skipped_exists`, and an OCR failure yields no entry at
all; stage 2 yields exactly one entry per prior entry with usable keys
(the prior status never filters anything), each with status `ok`,
`skipped_exists`, `no_ocr_text` or `error`; stage 3, when it returns,
yields exactly one entry per eligible prior entry (dropping
non-`ok`/`skipped_exists` statuses before processing), each with status
`ok`, `skipped_exists` or `error`. -/
theorem c3_manifest_shape_amended :
    (∀ (c : Ctx1) (p : String) (s : Store) (key : String),
        (processPdf1 c p s key).2.1 = none
        ∨ ∃ en, (processPdf1 c p s key).2.1 = some en
            ∧ (statusOf en = "" ∨ statusOf en = "skipped_exists"))
    ∧ (∀ (c : Ctx2) (force : Bool) (items : List JVal) (s : Store),
        (stage2Loop c force s items).2.1.length
            = (items.filter keysPresent2).length
        ∧ ∀ en ∈ (stage2Loop c force s items).2.1,
            statusOf en
              ∈ (["ok", "skipped_exists", "no_ocr_text", "error"] : List String))
    ∧ (∀ (c : Ctx3) (force : Bool) (items : List JVal) (s : Store)
          (fb : Option String) (r : Store × List Entry × Nat × Option String),
        stage3Loop c force s fb items = .ok r →
        r.2.1.length = (items.filter eligible3).length
        ∧ ∀ en ∈ r.2.1,
            statusOf en ∈ (["ok", "skipped_exists", "error"] : List String)) := by
  refine ⟨?_, fun c force => stage2_loop_shape c force,
    fun c force => stage3_loop_shape c force⟩
  intro c p s key
  by_cases hsk : storeHasKey s (stage1OutKey p key) = true
  · rw [processPdf1_skip c p s key hsk]
    exact Or.inr ⟨skipEntry1 c.bucket key (stage1OutKey p key), rfl,
      Or.inr (skipEntry1_statusOf _ _ _)⟩
  · rw [Bool.not_eq_true] at hsk
    rcases hblob : storeGet s key with _ | b
    · left
      simp [processPdf1, hsk, hblob]
    · rcases b with pgs | v | t
      · rcases hres : (ocrAll c.ocr (effPages c pgs)).1 with m | texts
        · left
          simp [processPdf1, hsk, hblob, hres]
        · right
          refine ⟨okEntry1 c.bucket key (stage1OutKey p key) texts.length,
            ?_, Or.inl (okEntry1_statusOf c.bucket key
              (stage1OutKey p key) texts.length).1⟩
          simp [processPdf1, hsk, hblob, hres]
      · left
        simp [processPdf1, hsk, hblob]
      · left
        simp [processPdf1, hsk, hblob]

theorem c3_manifest_shape_amended_witness :
    stage3Loop c9xCtx false c9xStore none [c9xItem] = .ok c3zRes
    ∧ c3zRes.2.1.length = ([c9xItem].filter eligible3).length :=
  ⟨by rfl,
   (c3_manifest_shape_amended.2.2 c9xCtx false [c9xItem] c9xStore none
      c3zRes (by rfl)).1⟩

/-- C6 counterexample: the stage 1 manifest records its one successful
document with no `status` field at all, so it has zero entries with
status in the claimed eligible set, yet stage 2 derives one work item
from it and invokes the transform once; moreover stage 2 processes an
entry whose status is `error` as long as its keys are usable. -/
theorem c6_chain_filter_cex :
    countStatus c6xO1.manifest "ok"
      + countStatus c6xO1.manifest "skipped_exists" = 0
    ∧ c6xO1.manifest.length = 1
    ∧ c6xO2.calls = 1
    ∧ c6xO2.manifest.length = 1
    ∧ ((processEntry2 c3yCtx false c3yStore c6yItem).2.1).isSome = true := by
  decide

/-- C6 amended: stage 2 derives one work item per prior entry with
usable keys, regardless of its status (an `error` entry with usable
keys is still processed, and stage 1 success entries carry no status
yet are processed); only stage 3 filters on the prior status, deriving
one work item per entry whose lowercased status is `ok` or
`skipped_exists` and whose keys are usable. -/
theorem c6_chain_filter_amended :
    (∀ (c : Ctx2) (force : Bool) (s : Store) (it : JVal),
        ((processEntry2 c force s it).2.1).isSome = keysPresent2 it)
    ∧ (∀ (c : Ctx2) (force : Bool) (items : List JVal) (s : Store),
        (stage2Loop c force s items).2.1.length = items.countP keysPresent2)
    ∧ (∀ (c : Ctx3) (force : Bool) (s : Store) (fb : Option String) (it : JVal),
        eligible3 it = false →
        processEntry3 c force s fb it = .ok (s, none, 0, fb))
    ∧ (∀ (c : Ctx3) (force : Bool) (items : List JVal) (s : Store)
          (fb : Option String) (r : Store × List Entry × Nat × Option String),
        stage3Loop c force s fb items = .ok r →
        r.2.1.length = items.countP eligible3) := by
  refine ⟨?_, ?_, fun c force s fb it h => processEntry3_notEligible c force s fb it h, ?_⟩
  · intro c force s it
    cases hkp : keysPresent2 it with
    | false =>
      rw [processEntry2_none c force s it hkp]
      rfl
    | true =>
      have hk1 : (pdfKeyOf it).isSome = true := by
        rw [keysPresent2] at hkp
        exact (Bool.and_eq_true_iff.mp hkp).1
      have hk2 : (truthyStrGet it "ocr_json_s3_key").isSome = true := by
        rw [keysPresent2] at hkp
        exact (Bool.and_eq_true_iff.mp hkp).2
      obtain ⟨pdfKey, hk⟩ := Option.isSome_iff_exists.mp hk1
      obtain ⟨ocrKey, ho⟩ := Option.isSome_iff_exists.mp hk2
      obtain ⟨st, _, hsome⟩ := processEntry2_some c force s it pdfKey ocrKey hk ho
      rw [hsome]
      rfl
  · intro c force items s
    rw [(stage2_loop_shape c force items s).1, List.countP_eq_length_filter]
  · intro c force items s fb r hloop
    rw [(stage3_loop_shape c force items s fb r hloop).1,
      List.countP_eq_length_filter]

theorem c6_chain_filter_amended_witness :
    ((processEntry2 c3yCtx false c3yStore c6yItem).2.1).isSome
        = keysPresent2 c6yItem
    ∧ c3zRes.2.1.length = [c9xItem].countP eligible3 :=
  ⟨c6_chain_filter_amended.1 c3yCtx false c3yStore c6yItem,
   c6_chain_filter_amended.2.2.2 c9xCtx false [c9xItem] c9xStore none c3zRes
     (by rfl)⟩

/-- C1 counterexample: in a stage 1 run over three documents where the
remote transform fails deterministically for exactly one of them, the
failing document is attempted (three transform calls) but the persisted
manifest has only two entries and ZERO `error` entries — the failing
item is dropped rather than recorded with status `error`. -/
theorem c1_fault_containment_cex :
    (listPdfKeys c1xStore (normPfx c1xCtx.pfx)).length = 3
    ∧ (runStage1 c1xCtx c1xStore).calls = 3
    ∧ (runStage1 c1xCtx c1xStore).manifest.length = 2
    ∧ countStatus (runStage1 c1xCtx c1xStore).manifest "error" = 0
    ∧ (runStage1 c1xCtx c1xStore).manifestWritten = true := by
  decide

/-- C1 amended: fault containment holds for stage 2 — in a well-formed
run where the transform fails for exactly one of the N items, the run
completes with a manifest of exactly N entries, exactly one `error`
entry and N-1 `ok` entries, and no output artifact for the failing item
— but in stage 1 a failing document produces NO manifest entry at all:
the manifest has N-1 entries and zero `error` entries. -/
theorem c1_fault_containment_amended :
    (∀ (c : Ctx2) (s : Store) (A : List Entry) (bad : Entry) (B : List Entry)
        (pk okky : Entry → String) (pay : Entry → JVal) (tx : Entry → List String),
        S2Inv c s (A ++ bad :: B) pk okky pay tx →
        (∀ e ∈ A, fextStatus c (tx e) = "ok") →
        (∀ e ∈ B, fextStatus c (tx e) = "ok") →
        fextStatus c (tx bad) = "error" →
        (stage2Loop c false s ((A ++ bad :: B).map .obj)).2.1.length
            = (A ++ bad :: B).length
        ∧ countStatus
            (stage2Loop c false s ((A ++ bad :: B).map .obj)).2.1 "error" = 1
        ∧ countStatus
            (stage2Loop c false s ((A ++ bad :: B).map .obj)).2.1 "ok"
            = (A ++ bad :: B).length - 1
        ∧ storeHasKey (stage2Loop c false s ((A ++ bad :: B).map .obj)).1
            (fextKeyOf (pk bad)) = false)
    ∧ (∀ (c : Ctx1) (p : String) (s : Store) (A1 : List String) (bad1 : String)
        (B1 : List String) (pgs : String → List Nat),
        S1Inv c p s (A1 ++ bad1 :: B1) pgs →
        (∀ k ∈ A1, (exp1 c p k (pgs k)).isSome = true) →
        (∀ k ∈ B1, (exp1 c p k (pgs k)).isSome = true) →
        exp1 c p bad1 (pgs bad1) = none →
        (stage1Loop c p s (A1 ++ bad1 :: B1)).2.1.length
            = (A1 ++ bad1 :: B1).length - 1
        ∧ countStatus (stage1Loop c p s (A1 ++ bad1 :: B1)).2.1 "error" = 0
        ∧ storeHasKey (stage1Loop c p s (A1 ++ bad1 :: B1)).1
            (stage1OutKey p bad1) = false) := by
  constructor
  · intro c s A bad B pk okky pay tx hinv hA hB hbad
    have hsim := stage2_sim c (A ++ bad :: B) s pk okky pay tx hinv
    have hbadmem : bad ∈ A ++ bad :: B :=
      List.mem_append.mpr (Or.inr (List.mem_cons_self bad B))
    refine ⟨?_, ?_, ?_, ?_⟩
    · rw [hsim.1, List.length_map]
    · rw [hsim.1, countStatus_map]
      simp only [entry2_statusOf]
      rw [← List.countP_eq_length_filter, List.countP_append, List.countP_cons]
      have h0A : A.countP (fun a => fextStatus c (tx a) == "error") = 0 :=
        List.countP_eq_zero.mpr (fun a ha => by rw [hA a ha]; decide)
      have h0B : B.countP (fun a => fextStatus c (tx a) == "error") = 0 :=
        List.countP_eq_zero.mpr (fun a ha => by rw [hB a ha]; decide)
      rw [h0A, h0B, hbad]
      decide
    · rw [hsim.1, countStatus_map]
      simp only [entry2_statusOf]
      rw [← List.countP_eq_length_filter, List.countP_append, List.countP_cons]
      have h1A : A.countP (fun a => fextStatus c (tx a) == "ok") = A.length :=
        List.countP_eq_length.mpr (fun a ha => by rw [hA a ha]; decide)
      have h1B : B.countP (fun a => fextStatus c (tx a) == "ok") = B.length :=
        List.countP_eq_length.mpr (fun a ha => by rw [hB a ha]; decide)
      rw [h1A, h1B, hbad]
      have hne2 : (("error" : String) == "ok") = false := by decide
      rw [hne2]
      simp only [Bool.false_eq_true, if_false, List.length_append,
        List.length_cons]
      omega
    · exact hsim.2.2.2.2.2 bad hbadmem (by rw [hbad]; decide)
  · intro c p s A1 bad1 B1 pgs hinv hA1 hB1 hbad1
    have hsim := stage1_sim c p (A1 ++ bad1 :: B1) s pgs hinv
    have hbadmem : bad1 ∈ A1 ++ bad1 :: B1 :=
      List.mem_append.mpr (Or.inr (List.mem_cons_self bad1 B1))
    refine ⟨?_, ?_, ?_⟩
    · have hdrop : List.filterMap (fun k => exp1 c p k (pgs k)) (bad1 :: B1)
          = List.filterMap (fun k => exp1 c p k (pgs k)) B1 := by
        simp only [List.filterMap_cons, hbad1]
      rw [hsim.1, List.filterMap_append, hdrop]
      rw [List.length_append,
        length_filterMap_all_some _ A1 hA1, length_filterMap_all_some _ B1 hB1]
      simp only [List.length_append, List.length_cons]
      omega
    · rw [hsim.1, countStatus]
      refine List.countP_eq_zero.mpr ?_
      intro en hen
      obtain ⟨k, hk, hg⟩ := List.mem_filterMap.mp hen
      rw [exp1_some_status c p k (pgs k) en hg]
      decide
    · exact hsim.2.2.2.2 bad1 hbadmem (by rw [hbad1]; rfl)

theorem c1_fault_containment_amended_witness :
    (stage2Loop c1wC false c1wS (([] ++ c1wE :: []).map .obj)).2.1.length
        = ([] ++ c1wE :: []).length
    ∧ countStatus
        (stage2Loop c1wC false c1wS (([] ++ c1wE :: []).map .obj)).2.1 "error" = 1
    ∧ countStatus
        (stage2Loop c1wC false c1wS (([] ++ c1wE :: []).map .obj)).2.1 "ok"
        = ([] ++ c1wE :: []).length - 1
    ∧ storeHasKey (stage2Loop c1wC false c1wS (([] ++ c1wE :: []).map .obj)).1
        (fextKeyOf "Z/a/a.pdf") = false :=
  c1_fault_containment_amended.1 c1wC c1wS [] c1wE []
    (fun _ => "Z/a/a.pdf") (fun _ => "Z/a/ocr/a.ocr.json")
    (fun _ => c1wPay) (fun _ => ["hello"])
    ⟨fun e he => by simp only [List.nil_append, List.mem_singleton] at he; subst he; rfl,
     fun e he => by simp only [List.nil_append, List.mem_singleton] at he; subst he; rfl,
     fun e he => by simp only [List.nil_append, List.mem_singleton] at he; subst he; rfl,
     fun e he => by simp only [List.nil_append, List.mem_singleton] at he; subst he; rfl,
     fun e he => by simp only [List.nil_append, List.mem_singleton] at he; subst he; decide,
     fun e he => by simp only [List.nil_append, List.mem_singleton] at he; subst he; rfl,
     by simp,
     fun e he e2 he2 => by
       simp only [List.nil_append, List.mem_singleton] at he he2
       subst he
       subst he2
       decide⟩
    (fun e he => absurd he (List.not_mem_nil e))
    (fun e he => absurd he (List.not_mem_nil e))
    rfl

/-- C8 counterexample: over an empty scope the pipeline CLI fails with
a `TypeError` before stage 1 runs; with the stage 1 call repaired,
stage 1 does warn and produce no manifest items, but the coordinator
STILL invokes stage 2, which fails loading the absent manifest — there
is no empty-scope short circuit in the coordinator. -/
theorem c8_empty_scope_cex :
    mainPipelineCmd c8xC1 c8xC2 c8xC3 false []
        = .error (.typeError
            "run_stage_01_ocr_from_s3 got an unexpected keyword argument force")
    ∧ runStage1 c8xC1 [] = ⟨[], [], 0, true, false⟩
    ∧ pipelineStagesInOrder c8xC1 c8xC2 c8xC3 false []
        = .error (.clientError "NoSuchKey") :=
  ⟨rfl, rfl, rfl⟩

/-- C8 amended: a stage 1 run whose enumeration yields zero documents
produces no manifest items, warns, and writes nothing; however the
coordinator body contains no short circuit — after such a run (call
repaired) it invokes stage 2 unconditionally, which fails with
`NoSuchKey` when no manifest exists under the stage 2 prefix; and the
unrepaired pipeline command always fails with `TypeError` first. -/
theorem c8_empty_scope_amended :
    (∀ (c : Ctx1) (s : Store),
        listPdfKeys s (normPfx c.pfx) = [] →
        runStage1 c s = ⟨s, [], 0, true, false⟩)
    ∧ (∀ (c1 : Ctx1) (c2 : Ctx2) (c3 : Ctx3) (force : Bool) (s : Store),
        listPdfKeys s (normPfx c1.pfx) = [] →
        storeGet s (normPfx c2.pfx ++ "manifest.json") = none →
        pipelineStagesInOrder c1 c2 c3 force s
            = .error (.clientError "NoSuchKey"))
    ∧ (∀ (c1 : Ctx1) (c2 : Ctx2) (c3 : Ctx3) (force : Bool) (s : Store),
        mainPipelineCmd c1 c2 c3 force s = .error (.typeError
          "run_stage_01_ocr_from_s3 got an unexpected keyword argument force")) := by
  refine ⟨fun c s h => runStage1_empty c s h, ?_, fun c1 c2 c3 force s => rfl⟩
  intro c1 c2 c3 force s h1 h2
  simp only [pipelineStagesInOrder, runStage1_empty c1 s h1]
  rw [runStage2_missing c2 force s h2]
  rfl

theorem c8_empty_scope_amended_witness :
    runStage1 c8xC1 [] = ⟨[], [], 0, true, false⟩
    ∧ pipelineStagesInOrder c8xC1 c8xC2 c8xC3 false []
        = .error (.clientError "NoSuchKey") :=
  ⟨c8_empty_scope_amended.1 c8xC1 [] (by rfl),
   c8_empty_scope_amended.2.1 c8xC1 c8xC2 c8xC3 false [] (by rfl) (by rfl)⟩

/-- Writes guarded by the optional log upload keep existing keys. -/
theorem storeHasKey_condPut_mono (s : Store) (b : Bool) (lk k : String)
    (bl : Blob) (h : storeHasKey s k = true) :
    storeHasKey (if b then storePut s lk bl else s) k = true := by
  cases b
  · simpa using h
  · simpa using storeHasKey_put_mono s lk k bl h

/-- Writes guarded by the optional log upload add at most their key. -/
theorem storeKeys_condPut_sub (s : Store) (b : Bool) (lk k : String)
    (bl : Blob) (h : k ∈ storeKeys (if b then storePut s lk bl else s)) :
    k = lk ∨ k ∈ storeKeys s := by
  cases b
  · exact Or.inr (by simpa using h)
  · exact storeKeys_put_sub s lk k bl (by simpa using h)

/-- A write to another key preserves lookups. -/
theorem storeGet_condPut_ne (s : Store) (b : Bool) (lk k : String)
    (bl : Blob) (h : ¬ k = lk) :
    storeGet (if b then storePut s lk bl else s) k = storeGet s k := by
  cases b
  · simp
  · simpa using storeGet_put_ne s lk k bl h

/-- A write to another key preserves absence. -/
theorem storeHasKey_put_ne_false (s : Store) (lk k : String) (bl : Blob)
    (h : ¬ k = lk) (h2 : storeHasKey s k = false) :
    storeHasKey (storePut s lk bl) k = false := by
  rw [storeHasKey, storeGet_put_ne s lk k bl h]
  exact h2

/-- A guarded write to another key preserves absence. -/
theorem storeHasKey_condPut_ne_false (s : Store) (b : Bool) (lk k : String)
    (bl : Blob) (h : ¬ k = lk) (h2 : storeHasKey s k = false) :
    storeHasKey (if b then storePut s lk bl else s) k = false := by
  rw [storeHasKey, storeGet_condPut_ne s b lk k bl h]
  exact h2

/-- Second stage 1 run over the store a fully successful first run
left: every document is skipped and no transform call is made. -/
theorem run2Stage1Skips (c : Ctx1) (s : Store) (pgs : String → List Nat)
    (hinv : S1Inv c (normPfx c.pfx) s (listPdfKeys s (normPfx c.pfx)) pgs)
    (hall : ∀ k ∈ listPdfKeys s (normPfx c.pfx),
      (exp1 c (normPfx c.pfx) k (pgs k)).isSome = true)
    (h1 : ∀ k ∈ listPdfKeys s (normPfx c.pfx),
      pdfKeyTest (normPfx c.pfx) (stage1OutKey (normPfx c.pfx) k) = false)
    (h2 : pdfKeyTest (normPfx c.pfx) (normPfx c.pfx ++ "manifest.json") = false)
    (h3 : pdfKeyTest (normPfx c.pfx) (normPfx c.pfx ++ "stage_01_ocr.log") = false) :
    (runStage1 c (runStage1 c s).store).calls = 0
    ∧ (∀ k ∈ listPdfKeys s (normPfx c.pfx),
        skipEntry1 c.bucket k (stage1OutKey (normPfx c.pfx) k)
          ∈ (runStage1 c (runStage1 c s).store).manifest)
    ∧ (∀ en ∈ (runStage1 c (runStage1 c s).store).manifest,
        statusOf en = "skipped_exists") := by
  set p := normPfx c.pfx with hp
  set keys := listPdfKeys s p with hkeys
  by_cases hks : keys = []
  · have he1 := runStage1_empty c s (hkeys ▸ hks)
    have hstore : (runStage1 c s).store = s := by rw [he1]
    rw [hstore]
    refine ⟨by rw [he1], ?_, ?_⟩
    · intro k hk
      rw [hks] at hk
      exact absurd hk (List.not_mem_nil k)
    · intro en hen
      rw [he1] at hen
      exact absurd hen (List.not_mem_nil en)
  · obtain ⟨hman1, hcall1, -, -, hstore1⟩ :=
      runStage1_eval c s keys hkeys.symm hks
    have hsim := stage1_sim c p keys s pgs hinv
    have hstore1' : (runStage1 c s).store
        = (if c.uploadLog then
            storePut (storePut (stage1Loop c p s keys).1 (p ++ "manifest.json")
                (manifestBlob (stage1Loop c p s keys).2.1))
              (p ++ "stage_01_ocr.log") (.blobText "")
           else storePut (stage1Loop c p s keys).1 (p ++ "manifest.json")
                (manifestBlob (stage1Loop c p s keys).2.1)) := by
      simpa using hstore1
    have hmono : ∀ kk, storeHasKey (stage1Loop c p s keys).1 kk = true →
        storeHasKey (runStage1 c s).store kk = true := by
      intro kk hkk
      rw [hstore1']
      exact storeHasKey_condPut_mono _ _ _ _ _
        (storeHasKey_put_mono _ _ _ _ hkk)
    have houts : ∀ k ∈ keys,
        storeHasKey (runStage1 c s).store (stage1OutKey p k) = true := by
      intro k hk
      exact hmono _ (hsim.2.2.2.1 k hk (hall k hk))
    have hsrc : ∀ k ∈ keys, storeHasKey (runStage1 c s).store k = true := by
      intro k hk
      have hs0 : storeHasKey s k = true := by
        rw [storeHasKey, hinv.blob k hk]
        rfl
      exact hmono _ (hsim.2.2.1 k hs0)
    have hsub : ∀ k ∈ listPdfKeys (runStage1 c s).store p, k ∈ keys := by
      intro k hk
      obtain ⟨hmem, htest⟩ := (mem_listPdfKeys _ p k).mp hk
      rw [hstore1'] at hmem
      rcases storeKeys_condPut_sub _ _ _ _ _ hmem with hlog | hmem2
      · rw [hlog] at htest
        exact absurd htest (by rw [h3]; decide)
      · rcases storeKeys_put_sub _ _ _ _ hmem2 with hmk | hmem3
        · rw [hmk] at htest
          exact absurd htest (by rw [h2]; decide)
        · rcases stage1Loop_keys_sub c p keys s k hmem3 with hsrc2 | hout
          · exact (mem_listPdfKeys s p k).mpr ⟨hsrc2, htest⟩
          · obtain ⟨k0, hk0, hk0e⟩ := List.mem_map.mp hout
            rw [← hk0e] at htest
            exact absurd htest (by rw [h1 k0 hk0]; decide)
    have hsup : ∀ k ∈ keys, k ∈ listPdfKeys (runStage1 c s).store p := by
      intro k hk
      refine (mem_listPdfKeys _ p k).mpr
        ⟨(storeHasKey_iff_mem _ k).mp (hsrc k hk), ?_⟩
      exact ((mem_listPdfKeys s p k).mp (hkeys ▸ hk)).2
    have hks2 : ¬ listPdfKeys (runStage1 c s).store p = [] := by
      obtain ⟨k0, hk0⟩ := List.exists_mem_of_ne_nil keys hks
      intro hnil
      rw [hnil] at hsup
      exact absurd (hsup k0 hk0) (List.not_mem_nil k0)
    have hallskip : ∀ k ∈ listPdfKeys (runStage1 c s).store p,
        storeHasKey (runStage1 c s).store (stage1OutKey p k) = true :=
      fun k hk => houts k (hsub k hk)
    have hskip := stage1_allskip c p (listPdfKeys (runStage1 c s).store p)
      (runStage1 c s).store hallskip
    obtain ⟨hman2, hcall2, -, -, -⟩ :=
      runStage1_eval c (runStage1 c s).store
        (listPdfKeys (runStage1 c s).store p) rfl hks2
    refine ⟨?_, ?_, ?_⟩
    · rw [hcall2, hskip]
    · intro k hk
      rw [hman2, hskip]
      exact List.mem_map_of_mem _ (hsup k hk)
    · intro en hen
      rw [hman2, hskip] at hen
      obtain ⟨k0, -, hk0e⟩ := List.mem_map.mp hen
      rw [← hk0e]
      exact skipEntry1_statusOf c.bucket k0 (stage1OutKey p k0)

/-- Second stage 2 run over the store the first run left: every
previously `ok` item is reported `skipped_exists`, previously failing
items are attempted again, and a fully successful first run makes the
second run transform-call free. -/
theorem run2Stage2Skips (c : Ctx2) (s : Store) (items : List Entry)
    (pk okky : Entry → String) (pay : Entry → JVal) (tx : Entry → List String)
    (hman : storeGet s (normPfx c.pfx ++ "manifest.json")
      = some (.json (.arr (items.map .obj))))
    (hne : ¬ items = [])
    (hinv : S2Inv c s items pk okky pay tx)
    (hd1 : ∀ e ∈ items, ¬ okky e = normPfx c.pfx ++ "manifest_fext.json")
    (hd2 : ∀ e ∈ items, ¬ okky e = normPfx c.pfx ++ "stage_02_fext.log")
    (hd3 : ∀ e ∈ items, ¬ fextKeyOf (pk e) = normPfx c.pfx ++ "manifest_fext.json")
    (hd4 : ∀ e ∈ items, ¬ fextKeyOf (pk e) = normPfx c.pfx ++ "stage_02_fext.log")
    (hd5 : ¬ (normPfx c.pfx ++ "manifest.json")
      = normPfx c.pfx ++ "manifest_fext.json")
    (hd6 : ¬ (normPfx c.pfx ++ "manifest.json")
      = normPfx c.pfx ++ "stage_02_fext.log")
    (hd7 : ∀ e ∈ items, ¬ (normPfx c.pfx ++ "manifest.json") = fextKeyOf (pk e)) :
    ∃ o1 o2, runStage2 c false s = .ok o1
    ∧ runStage2 c false o1.store = .ok o2
    ∧ o2.manifest = items.map (fun e => entry2 c.bucket (pk e) (okky e)
        (fextKeyOf (pk e))
        (if fextStatus c (tx e) = "ok" then "skipped_exists" else "error"))
    ∧ o2.calls = (items.filter (fun e => ¬ fextStatus c (tx e) = "ok")).length
    ∧ ((∀ e ∈ items, fextStatus c (tx e) = "ok") → o2.calls = 0) := by
  set p := normPfx c.pfx with hp
  have hnem : ¬ items.map JVal.obj = [] :=
    fun hh => hne (List.map_eq_nil_iff.mp hh)
  obtain ⟨hman1, hcall1, hframe1, hmono1, hok1, hnok1⟩ :=
    stage2_sim c items s pk okky pay tx hinv
  have hev1 := runStage2_eval c false s (items.map .obj) hman hnem
  set st1 : Store := (if c.uploadLog then
      storePut (storePut (stage2Loop c false s (items.map .obj)).1
          (p ++ "manifest_fext.json")
          (manifestBlob (stage2Loop c false s (items.map .obj)).2.1))
        (p ++ "stage_02_fext.log") (.blobText "")
     else storePut (stage2Loop c false s (items.map .obj)).1
          (p ++ "manifest_fext.json")
          (manifestBlob (stage2Loop c false s (items.map .obj)).2.1)) with hst1
  have hpres : ∀ k, ¬ k = p ++ "manifest_fext.json" →
      ¬ k = p ++ "stage_02_fext.log" →
      ¬ k ∈ items.map (fun e => fextKeyOf (pk e)) →
      storeGet st1 k = storeGet s k := by
    intro k hk1 hk2 hk3
    rw [hst1, storeGet_condPut_ne _ _ _ _ _ hk2, storeGet_put_ne _ _ _ _ hk1,
      hframe1 k hk3]
  have hman2 : storeGet st1 (p ++ "manifest.json")
      = some (.json (.arr (items.map .obj))) := by
    rw [hpres _ hd5 hd6 ?hnm]
    · exact hman
    case hnm =>
      intro hmem
      obtain ⟨e0, he0, he0e⟩ := List.mem_map.mp hmem
      exact hd7 e0 he0 he0e.symm
  obtain ⟨hst2, hman3, hcall3⟩ := stage2_run2_sim c items st1 pk okky pay tx
    hinv.keys1 hinv.keys2
    (by
      intro e he
      rw [hpres _ (hd1 e he) (hd2 e he) ?hok2]
      · exact hinv.ocrBlob e he
      case hok2 =>
        intro hmem
        obtain ⟨e0, he0, he0e⟩ := List.mem_map.mp hmem
        exact hinv.disj e0 he0 e he he0e)
    hinv.texts hinv.textsNe
    (by
      intro e he hst
      rw [hst1]
      exact storeHasKey_condPut_mono _ _ _ _ _
        (storeHasKey_put_mono _ _ _ _ (hok1 e he hst)))
    (by
      intro e he hst
      rw [hst1]
      exact storeHasKey_condPut_ne_false _ _ _ _ _ (hd4 e he)
        (storeHasKey_put_ne_false _ _ _ _ (hd3 e he) (hnok1 e he hst)))
  have hev2 := runStage2_eval c false st1 (items.map .obj) hman2 hnem
  refine ⟨⟨st1, (stage2Loop c false s (items.map .obj)).2.1,
      (stage2Loop c false s (items.map .obj)).2.2, false, true⟩,
    ⟨(if c.uploadLog then
        storePut (storePut (stage2Loop c false st1 (items.map .obj)).1
            (p ++ "manifest_fext.json")
            (manifestBlob (stage2Loop c false st1 (items.map .obj)).2.1))
          (p ++ "stage_02_fext.log") (.blobText "")
       else storePut (stage2Loop c false st1 (items.map .obj)).1
            (p ++ "manifest_fext.json")
            (manifestBlob (stage2Loop c false st1 (items.map .obj)).2.1)),
      (stage2Loop c false st1 (items.map .obj)).2.1,
      (stage2Loop c false st1 (items.map .obj)).2.2, false, true⟩,
    by simpa using hev1, by simpa using hev2,
    by simpa using hman3, by simpa using hcall3, ?_⟩
  intro hallok
  have hz : (items.filter (fun e => ¬ fextStatus c (tx e) = "ok")).length = 0 := by
    rw [← List.countP_eq_length_filter]
    refine List.countP_eq_zero.mpr ?_
    intro e he
    simp [hallok e he]
  show (stage2Loop c false st1 (items.map .obj)).2.2 = 0
  rw [hcall3, hz]

/-- Second stage 3 run over the store a well-formed first run left:
every eligible item (previously `ok`) is reported `skipped_exists` and
the second run does no work. -/
theorem run2Stage3Skips (c : Ctx3) (s : Store) (items : List Entry)
    (pk fkk : Entry → String) (flds : Entry → List (String × JVal))
    (hman : storeGet s (normPfx c.pfx ++ "manifest_fext.json")
      = some (.json (.arr (items.map .obj))))
    (hne : ¬ items = [])
    (hinv : S3Inv c s items pk fkk flds)
    (hd3 : ¬ (normPfx c.pfx ++ "manifest_fext.json")
      = normPfx c.pfx ++ "manifest_clean.json")
    (hd4 : ¬ (normPfx c.pfx ++ "manifest_fext.json")
      = normPfx c.pfx ++ "stage_03_clean.log")
    (hd5 : ∀ e ∈ items, eligible3 (.obj e) = true →
      ¬ (normPfx c.pfx ++ "manifest_fext.json") = cleanKeyOf (pk e)) :
    ∃ o1 o2, runStage3 c false s = .ok o1
    ∧ runStage3 c false o1.store = .ok o2
    ∧ o1.manifest = (items.filter (fun e => eligible3 (.obj e))).map
        (fun e => okEntry3 c.bucket (pk e) (fkk e) (cleanKeyOf (pk e))
          (parentName (pk e)) (cleanedFeatures3 c (pk e) (flds e)).2)
    ∧ o2.manifest = (items.filter (fun e => eligible3 (.obj e))).map
        (fun e => skipEntry3 c.bucket (pk e) (fkk e) (cleanKeyOf (pk e)))
    ∧ o2.calls = 0 := by
  set p := normPfx c.pfx with hp
  have hnem : ¬ items.map JVal.obj = [] :=
    fun hh => hne (List.map_eq_nil_iff.mp hh)
  obtain ⟨r, hloop, hman1, hframe, hmono, hclean⟩ :=
    stage3_sim c items s none pk fkk flds hinv
  have hev1 := runStage3_eval c false s (items.map .obj) r hman hnem hloop
  set st1 : Store := (if c.uploadLog then
      storePut (storePut r.1 (p ++ "manifest_clean.json")
          (manifestBlob r.2.1))
        (p ++ "stage_03_clean.log") (.blobText "")
     else storePut r.1 (p ++ "manifest_clean.json")
          (manifestBlob r.2.1)) with hst1
  have hman2 : storeGet st1 (p ++ "manifest_fext.json")
      = some (.json (.arr (items.map .obj))) := by
    rw [hst1, storeGet_condPut_ne _ _ _ _ _ hd4, storeGet_put_ne _ _ _ _ hd3,
      hframe _ ?hnm]
    · exact hman
    case hnm =>
      intro hmem
      obtain ⟨e0, he0, he0e⟩ := List.mem_map.mp hmem
      obtain ⟨he0i, he0el⟩ := List.mem_filter.mp he0
      exact hd5 e0 he0i (by simpa using he0el) he0e.symm
  have hallskip : ∀ e ∈ items, eligible3 (.obj e) = true →
      storeHasKey st1 (cleanKeyOf (pk e)) = true := by
    intro e he hel
    rw [hst1]
    exact storeHasKey_condPut_mono _ _ _ _ _
      (storeHasKey_put_mono _ _ _ _ (hclean e he hel))
  have hskip := stage3_allskip c items st1 none pk fkk
    hinv.keys1 hinv.keys2 hallskip
  have hev2 := runStage3_eval c false st1 (items.map .obj)
    (st1, (items.filter (fun e => eligible3 (.obj e))).map
      (fun e => skipEntry3 c.bucket (pk e) (fkk e) (cleanKeyOf (pk e))),
      0, none) hman2 hnem hskip
  refine ⟨⟨st1, r.2.1, r.2.2.1, false, true⟩,
    ⟨(if c.uploadLog then
        storePut (storePut st1 (p ++ "manifest_clean.json")
            (manifestBlob ((items.filter (fun e => eligible3 (.obj e))).map
              (fun e => skipEntry3 c.bucket (pk e) (fkk e) (cleanKeyOf (pk e))))))
          (p ++ "stage_03_clean.log") (.blobText "")
       else storePut st1 (p ++ "manifest_clean.json")
            (manifestBlob ((items.filter (fun e => eligible3 (.obj e))).map
              (fun e => skipEntry3 c.bucket (pk e) (fkk e) (cleanKeyOf (pk e)))))),
      (items.filter (fun e => eligible3 (.obj e))).map
        (fun e => skipEntry3 c.bucket (pk e) (fkk e) (cleanKeyOf (pk e))),
      0, false, true⟩,
    by simpa using hev1, by simpa using hev2, by simpa using hman1, rfl, rfl⟩

/-- C7: running any stage a second time with `force=false` over the
unchanged store skips every item whose output exists (the existence of
the output artifact at its computed key is the sole idempotency
signal): every previously `ok` item is reported `skipped_exists`, and
when the first run fully succeeded the second run makes zero
remote-transform calls. -/
theorem c7_idempotency :
    (∀ (c : Ctx1) (s : Store) (pgs : String → List Nat),
      S1Inv c (normPfx c.pfx) s (listPdfKeys s (normPfx c.pfx)) pgs →
      (∀ k ∈ listPdfKeys s (normPfx c.pfx),
        (exp1 c (normPfx c.pfx) k (pgs k)).isSome = true) →
      (∀ k ∈ listPdfKeys s (normPfx c.pfx),
        pdfKeyTest (normPfx c.pfx) (stage1OutKey (normPfx c.pfx) k) = false) →
      pdfKeyTest (normPfx c.pfx) (normPfx c.pfx ++ "manifest.json") = false →
      pdfKeyTest (normPfx c.pfx) (normPfx c.pfx ++ "stage_01_ocr.log") = false →
      (runStage1 c (runStage1 c s).store).calls = 0
      ∧ (∀ k ∈ listPdfKeys s (normPfx c.pfx),
          skipEntry1 c.bucket k (stage1OutKey (normPfx c.pfx) k)
            ∈ (runStage1 c (runStage1 c s).store).manifest)
      ∧ (∀ en ∈ (runStage1 c (runStage1 c s).store).manifest,
          statusOf en = "skipped_exists"))
    ∧ (∀ (c : Ctx2) (s : Store) (items : List Entry)
        (pk okky : Entry → String) (pay : Entry → JVal) (tx : Entry → List String),
      storeGet s (normPfx c.pfx ++ "manifest.json")
        = some (.json (.arr (items.map .obj))) →
      ¬ items = [] →
      S2Inv c s items pk okky pay tx →
      (∀ e ∈ items, ¬ okky e = normPfx c.pfx ++ "manifest_fext.json") →
      (∀ e ∈ items, ¬ okky e = normPfx c.pfx ++ "stage_02_fext.log") →
      (∀ e ∈ items, ¬ fextKeyOf (pk e) = normPfx c.pfx ++ "manifest_fext.json") →
      (∀ e ∈ items, ¬ fextKeyOf (pk e) = normPfx c.pfx ++ "stage_02_fext.log") →
      ¬ (normPfx c.pfx ++ "manifest.json") = normPfx c.pfx ++ "manifest_fext.json" →
      ¬ (normPfx c.pfx ++ "manifest.json") = normPfx c.pfx ++ "stage_02_fext.log" →
      (∀ e ∈ items, ¬ (normPfx c.pfx ++ "manifest.json") = fextKeyOf (pk e)) →
      ∃ o1 o2, runStage2 c false s = .ok o1
      ∧ runStage2 c false o1.store = .ok o2
      ∧ o2.manifest = items.map (fun e => entry2 c.bucket (pk e) (okky e)
          (fextKeyOf (pk e))
          (if fextStatus c (tx e) = "ok" then "skipped_exists" else "error"))
      ∧ o2.calls = (items.filter (fun e => ¬ fextStatus c (tx e) = "ok")).length
      ∧ ((∀ e ∈ items, fextStatus c (tx e) = "ok") → o2.calls = 0))
    ∧ (∀ (c : Ctx3) (s : Store) (items : List Entry)
        (pk fkk : Entry → String) (flds : Entry → List (String × JVal)),
      storeGet s (normPfx c.pfx ++ "manifest_fext.json")
        = some (.json (.arr (items.map .obj))) →
      ¬ items = [] →
      S3Inv c s items pk fkk flds →
      ¬ (normPfx c.pfx ++ "manifest_fext.json")
        = normPfx c.pfx ++ "manifest_clean.json" →
      ¬ (normPfx c.pfx ++ "manifest_fext.json")
        = normPfx c.pfx ++ "stage_03_clean.log" →
      (∀ e ∈ items, eligible3 (.obj e) = true →
        ¬ (normPfx c.pfx ++ "manifest_fext.json") = cleanKeyOf (pk e)) →
      ∃ o1 o2, runStage3 c false s = .ok o1
      ∧ runStage3 c false o1.store = .ok o2
      ∧ o1.manifest = (items.filter (fun e => eligible3 (.obj e))).map
          (fun e => okEntry3 c.bucket (pk e) (fkk e) (cleanKeyOf (pk e))
            (parentName (pk e)) (cleanedFeatures3 c (pk e) (flds e)).2)
      ∧ o2.manifest = (items.filter (fun e => eligible3 (.obj e))).map
          (fun e => skipEntry3 c.bucket (pk e) (fkk e) (cleanKeyOf (pk e)))
      ∧ o2.calls = 0) :=
  ⟨fun c s pgs hinv hall h1 h2 h3 =>
      run2Stage1Skips c s pgs hinv hall h1 h2 h3,
   fun c s items pk okky pay tx hman hne hinv hd1 hd2 hd3 hd4 hd5 hd6 hd7 =>
      run2Stage2Skips c s items pk okky pay tx hman hne hinv
        hd1 hd2 hd3 hd4 hd5 hd6 hd7,
   fun c s items pk fkk flds hman hne hinv hd3 hd4 hd5 =>
      run2Stage3Skips c s items pk fkk flds hman hne hinv hd3 hd4 hd5⟩

theorem c7_idempotency_witness :
    ((runStage1 c6xC1 (runStage1 c6xC1 c6xS0).store).calls = 0
     ∧ skipEntry1 c6xC1.bucket "Z/a/a.pdf"
         (stage1OutKey (normPfx c6xC1.pfx) "Z/a/a.pdf")
         ∈ (runStage1 c6xC1 (runStage1 c6xC1 c6xS0).store).manifest)
    ∧ (∃ o1 o2, runStage2 c6xC2 false c7wS2 = .ok o1
        ∧ runStage2 c6xC2 false o1.store = .ok o2
        ∧ o2.manifest = [c1wE].map (fun _ => entry2 c6xC2.bucket "Z/a/a.pdf"
            "Z/a/ocr/a.ocr.json" (fextKeyOf "Z/a/a.pdf")
            (if fextStatus c6xC2 ["hello"] = "ok" then "skipped_exists" else "error"))
        ∧ o2.calls
            = ([c1wE].filter (fun _ => ¬ fextStatus c6xC2 ["hello"] = "ok")).length
        ∧ ((∀ e ∈ [c1wE], fextStatus c6xC2 ["hello"] = "ok") → o2.calls = 0))
    ∧ (∃ o1 o2, runStage3 c9xCtx false c7wS3 = .ok o1
        ∧ runStage3 c9xCtx false o1.store = .ok o2
        ∧ o1.manifest = ([c9xEntry].filter (fun e => eligible3 (.obj e))).map
            (fun _ => okEntry3 c9xCtx.bucket "Z/a/a.pdf" "Z/a/fext/a.features.json"
              (cleanKeyOf "Z/a/a.pdf") (parentName "Z/a/a.pdf")
              (cleanedFeatures3 c9xCtx "Z/a/a.pdf" c7wFlds).2)
        ∧ o2.manifest = ([c9xEntry].filter (fun e => eligible3 (.obj e))).map
            (fun _ => skipEntry3 c9xCtx.bucket "Z/a/a.pdf" "Z/a/fext/a.features.json"
              (cleanKeyOf "Z/a/a.pdf"))
        ∧ o2.calls = 0) := by
  have hlist : listPdfKeys c6xS0 (normPfx c6xC1.pfx) = ["Z/a/a.pdf"] := by decide
  refine ⟨?_, ?_, ?_⟩
  · have h := c7_idempotency.1 c6xC1 c6xS0 (fun _ => [1])
      ⟨by
        intro k hk
        rw [hlist] at hk
        have hk2 : k = "Z/a/a.pdf" := by simpa using hk
        subst hk2
        rfl,
       by
        intro k hk
        rw [hlist] at hk
        have hk2 : k = "Z/a/a.pdf" := by simpa using hk
        subst hk2
        decide,
       by rw [hlist]; decide,
       by
        intro k hk k2 hk2
        rw [hlist] at hk hk2
        have h2 : k = "Z/a/a.pdf" := by simpa using hk
        have h3 : k2 = "Z/a/a.pdf" := by simpa using hk2
        subst h2
        subst h3
        decide⟩
      (by
        intro k hk
        rw [hlist] at hk
        have hk2 : k = "Z/a/a.pdf" := by simpa using hk
        subst hk2
        decide)
      (by
        intro k hk
        rw [hlist] at hk
        have hk2 : k = "Z/a/a.pdf" := by simpa using hk
        subst hk2
        decide)
      (by decide) (by decide)
    exact ⟨h.1, h.2.1 "Z/a/a.pdf" (by rw [hlist]; exact List.mem_cons_self _ _)⟩
  · exact c7_idempotency.2.1 c6xC2 c7wS2 [c1wE]
      (fun _ => "Z/a/a.pdf") (fun _ => "Z/a/ocr/a.ocr.json")
      (fun _ => c1wPay) (fun _ => ["hello"])
      (by rfl) (List.cons_ne_nil c1wE [])
      ⟨fun e he => by
          have he2 : e = c1wE := by simpa using he
          subst he2; rfl,
       fun e he => by
          have he2 : e = c1wE := by simpa using he
          subst he2; rfl,
       fun e he => by
          have he2 : e = c1wE := by simpa using he
          subst he2; rfl,
       fun e he => by
          have he2 : e = c1wE := by simpa using he
          subst he2; rfl,
       fun e he => by
          have he2 : e = c1wE := by simpa using he
          subst he2; decide,
       fun e he => by
          have he2 : e = c1wE := by simpa using he
          subst he2; decide,
       by decide,
       fun e he e2 he2 => by
          have h2 : e = c1wE := by simpa using he
          have h3 : e2 = c1wE := by simpa using he2
          subst h2; subst h3; decide⟩
      (fun e he => by
        have he2 : e = c1wE := by simpa using he
        subst he2; decide)
      (fun e he => by
        have he2 : e = c1wE := by simpa using he
        subst he2; decide)
      (fun e he => by
        have he2 : e = c1wE := by simpa using he
        subst he2; decide)
      (fun e he => by
        have he2 : e = c1wE := by simpa using he
        subst he2; decide)
      (by decide) (by decide)
      (fun e he => by
        have he2 : e = c1wE := by simpa using he
        subst he2; decide)
  · exact c7_idempotency.2.2 c9xCtx c7wS3 [c9xEntry]
      (fun _ => "Z/a/a.pdf") (fun _ => "Z/a/fext/a.features.json")
      (fun _ => c7wFlds)
      (by rfl) (List.cons_ne_nil c9xEntry [])
      ⟨fun e he hel => by
          have he2 : e = c9xEntry := by simpa using he
          subst he2; rfl,
       fun e he hel => by
          have he2 : e = c9xEntry := by simpa using he
          subst he2; rfl,
       fun e he hel => by
          have he2 : e = c9xEntry := by simpa using he
          subst he2; rfl,
       fun e he hel => by
          have he2 : e = c9xEntry := by simpa using he
          subst he2; decide,
       by decide,
       fun e he hel e2 he2 hel2 => by
          have h2 : e = c9xEntry := by simpa using he
          have h3 : e2 = c9xEntry := by simpa using he2
          subst h2; subst h3; decide⟩
      (by decide) (by decide)
      (fun e he hel => by
        have he2 : e = c9xEntry := by simpa using he
        subst he2; decide)
